import Mathlib

/-!
A shallow embedding of the `reflectlang` expression language from the
crawlspace repository (src/reflectlang/env.go): the value model over Go's
`reflect.Value`, the environment, the recursive-descent parser, the AST
nodes and their `Run` evaluation, and the standard environment's built-in
binding operators.  Theorems at the end check the repository's
specification claims against this embedding.

Modelling conventions, stated once here:
* `reflect.Value` is modelled by the inductive `RVal`.  The zero
  `reflect.Value` (also the result of `reflect.ValueOf(nil)`) is
  `RVal.invalid`.  Go `int`/`int64` values are both `RVal.int` (they are
  distinct reflect kinds in Go; no claim distinguishes them).
* Go float64 literals are carried symbolically as their literal text
  (`RVal.float`); no claim evaluates floating point arithmetic.
* Maps and environments are association lists; Go's randomized map
  iteration order is fixed to source declaration order where the source
  iterates a map (`parseOpAndRHS`'s operator map) — every input exercised
  by a claim yields an iteration-order-independent result.
* Go panics recovered by `Eval` are the `Failure.fault` branch; their
  message texts approximate the Go runtime's.
* Environments are compared by pointer in the source
  (`reflect.ValueOf(lf.Env).Pointer()`); the model gives each environment
  a numeric identity `Environment.id`, preserved by every mutation.
* Addressability of values is not tracked: no value reachable in the model
  is addressable, so `Value.Addr` (the `&` modifier) is modelled as the
  panic Go raises on unaddressable values.  No claim exercises `&`.
* Externally registered host functions are black boxes to the engine;
  `RVal.hostFunc` models one by its arity and the fixed list of values an
  invocation returns (Go functions with multiple returns yield multi-value
  results through `reflect.Value.Call`).  Host methods reached by method
  lookup are opaque (no claim invokes one).
-/

set_option maxHeartbeats 1000000

namespace Reflectlang

/-- Source position: `offset`, `line`, `col` of the parser's `position`. -/
structure Pos where
  offset : Nat
  line : Nat
  col : Nat
deriving DecidableEq, Repr

/-- The sentinel error values of env.go: ErrParser, ErrUnboundVar,
ErrTypeMismatch, ErrUnknownOp, ErrRuntime. -/
inductive ErrKind where
  | parser
  | unboundVar
  | typeMismatch
  | unknownOp
  | runtime
deriving DecidableEq, Repr

/-- A Go error value as produced by the source: either built through
`position.Err` (and therefore carrying a line and column), or built
through `fmt.Errorf("%w: ...")` wrapping a sentinel error with no
position, or a plain `fmt.Errorf`/`errors.New` error. -/
inductive GoError where
  | posErr (kind : ErrKind) (line col : Nat) (msg : String)
  | wrappedErr (kind : ErrKind) (msg : String)
  | plainErr (msg : String)
deriving DecidableEq, Repr

/-- Whether an error carries a source line and column. -/
def GoError.hasPosition : GoError → Bool
  | .posErr .. => true
  | .wrappedErr .. => false
  | .plainErr _ => false

/-- Evaluation failure: a returned Go error, or a Go panic (recovered at
the `Eval` boundary). -/
inductive Failure where
  | err (e : GoError)
  | fault (msg : String)
deriving DecidableEq, Repr

mutual

/-- Model of `reflect.Value` restricted to the value shapes the claims
need.  `lowerFn` and `lowerSt` are the source's `lowerFunc` and
`lowerStruct` structs (both of reflect kind Struct), tagged with the
identity of their owning environment.  `hostStruct` / `ptr` / `iface` are
ordinary host values with their method names; method lookup yields the
opaque callable `hostMethodVal`.  `hostFunc` models an externally
registered Go function value as a black box: its arity and the (fixed)
values an invocation returns — multi-value results, as Go functions with
multiple returns produce through `reflect.Value.Call`, arise only from
it and from the built-ins. -/
inductive RVal where
  | invalid
  | bool (b : Bool)
  | int (n : Int)
  | float (lit : String)
  | duration (ns : Int)
  | str (s : String)
  | slice (elems : List RVal)
  | rmap (pairs : List (RVal × RVal))
  | hostStruct (methods : List String) (fields : List (String × RVal))
  | ptr (methods : List String) (elem : RVal)
  | iface (elem : RVal)
  | hostMethodVal (name : String)
  | hostFunc (arity : Nat) (results : List RVal)
  | lowerFn (envId : Nat) (fn : NativeFn)
  | lowerSt (envId : Nat) (sub : List (String × RVal))

/-- The native closures installed by `NewStandardEnvironment`:
`$import`, the first step of `assignment` (`$define`/`$mutate`), the
second step returned by it (capturing the name list `lhs`), and `len`. -/
inductive NativeFn where
  | importFn
  | assignNames (isMutate : Bool)
  | assignValues (isMutate : Bool) (lhs : List RVal)
  | lenFn

end

/-- Model of `type Environment map[string]reflect.Value`, with a numeric
identity standing in for the Go map pointer. -/
structure Environment where
  id : Nat
  binds : List (String × RVal)

/-- Map lookup `env[key]`. -/
def envGet (env : Environment) (key : String) : Option RVal :=
  env.binds.lookup key

/-- Association-list update underlying `env[key] = v`. -/
def setAssoc : List (String × RVal) → String → RVal → List (String × RVal)
  | [], k, v => [(k, v)]
  | (k', v') :: rest, k, v =>
    if k' = k then (k, v) :: rest else (k', v') :: setAssoc rest k v

/-- Map assignment `env[key] = v`; the map identity is unchanged. -/
def envSet (env : Environment) (key : String) (v : RVal) : Environment :=
  { env with binds := setAssoc env.binds key v }

/-- The reflect kinds the model distinguishes. -/
inductive Kind where
  | invalid
  | bool
  | int64
  | float64
  | string
  | slice
  | map
  | struct
  | ptr
  | interface
  | func
deriving DecidableEq, Repr

/-- Model of `reflect.Value.Kind()`. -/
def kindOf : RVal → Kind
  | .invalid => .invalid
  | .bool _ => .bool
  | .int _ => .int64
  | .duration _ => .int64
  | .float _ => .float64
  | .str _ => .string
  | .slice _ => .slice
  | .rmap _ => .map
  | .hostStruct .. => .struct
  | .ptr .. => .ptr
  | .iface _ => .interface
  | .hostMethodVal _ => .func
  | .hostFunc .. => .func
  | .lowerFn .. => .struct
  | .lowerSt .. => .struct

/-- Kind names as `reflect.Kind.String()` renders them. -/
def kindName : Kind → String
  | .invalid => "invalid"
  | .bool => "bool"
  | .int64 => "int64"
  | .float64 => "float64"
  | .string => "string"
  | .slice => "slice"
  | .map => "map"
  | .struct => "struct"
  | .ptr => "ptr"
  | .interface => "interface"
  | .func => "func"

/-- Model of `reflect.Value.CanInt()`. -/
def canInt (v : RVal) : Bool :=
  kindOf v = .int64

/-- Model of `reflect.Value.Int()` (call sites guard with `canInt`). -/
def rvalInt : RVal → Int
  | .int n => n
  | .duration ns => ns
  | _ => 0

/-- Model of `reflect.Value.Bool()`: panics on non-bool kinds. -/
def goBool (v : RVal) : Except Failure Bool :=
  match v with
  | .bool b => .ok b
  | v => .error (.fault ("reflect: call of reflect.Value.Bool on "
      ++ kindName (kindOf v) ++ " Value"))

/-- Go-syntax string quoting as `%q`/`%#v` render a string (the escapes
the claims exercise). -/
def goEscapeChar (c : Char) : String :=
  match c with
  | '\\' => "\\\\"
  | '"' => "\\\""
  | '\n' => "\\n"
  | '\t' => "\\t"
  | '\r' => "\\r"
  | c => String.singleton c

/-- Quote a string the way Go's `%q` does. -/
def goQuoteStr (s : String) : String :=
  "\"" ++ String.join (s.data.map goEscapeChar) ++ "\""

/-- Loose model of how `fmt` renders a `reflect.Value` with `%q`/`%#v`
(fmt substitutes the underlying value); exact renderings of aggregates are
approximated and no claim depends on them. -/
def goQuoteVal : RVal → String
  | .invalid => "<invalid reflect.Value>"
  | .bool b => cond b "true" "false"
  | .int n => toString n
  | .duration ns => toString ns
  | .float lit => lit
  | .str s => goQuoteStr s
  | .slice _ => "slice value"
  | .rmap _ => "map value"
  | .hostStruct .. => "struct value"
  | .ptr .. => "pointer value"
  | .iface _ => "interface value"
  | .hostMethodVal name => "func " ++ name
  | .hostFunc .. => "func value"
  | .lowerFn .. => "reflectlang.lowerFunc value"
  | .lowerSt .. => "reflectlang.lowerStruct value"

/-- Model of `reflect.Value.MethodByName`: only host structs and pointers
carry method sets in the model (primitive host values with methods are not
needed by any claim); absent methods yield the zero Value, modelled as
`none`. -/
def methodByName (v : RVal) (name : String) : Option RVal :=
  match v with
  | .hostStruct ms _ => if ms.contains name then some (.hostMethodVal name) else none
  | .ptr ms _ => if ms.contains name then some (.hostMethodVal name) else none
  | _ => none

/-- Model of `reflect.Value.FieldByName` on struct-kind values: a missing
field yields the zero Value.  The Go-internal exported fields of
`lowerFunc`/`lowerStruct` (`Env`, `Func`, `Field`) hold values outside the
`RVal` model and are rendered as the zero Value; no claim reads them. -/
def fieldByName (v : RVal) (name : String) : RVal :=
  match v with
  | .hostStruct _ fields => (fields.lookup name).getD .invalid
  | _ => .invalid

/-- Model of `reflect.Value.Elem()` on pointer/interface kinds. -/
def elemOf : RVal → Option RVal
  | .ptr _ e => some e
  | .iface e => some e
  | _ => none

/-- Model of `reflect.Value.Equal`: both invalid is true, one invalid is
false, distinct types are false, primitives compare by value, and
non-comparable or identity-compared kinds (slices, maps, funcs, the
lowered structs, pointers) are left as faults — no claim compares them.
Float values compare by literal text (never exercised). -/
def rvalEqual (a b : RVal) : Except Failure Bool :=
  match a, b with
  | .invalid, .invalid => .ok true
  | .invalid, _ => .ok false
  | _, .invalid => .ok false
  | .bool x, .bool y => .ok (x = y)
  | .int x, .int y => .ok (x = y)
  | .duration x, .duration y => .ok (x = y)
  | .float x, .float y => .ok (x = y)
  | .str x, .str y => .ok (x = y)
  | .slice _, .slice _ => .error (.fault "reflect.Value.Equal on slice values")
  | .rmap _, .rmap _ => .error (.fault "reflect.Value.Equal on map values")
  | .hostStruct .., .hostStruct .. =>
    .error (.fault "reflect.Value.Equal on struct values not modelled")
  | .ptr .., .ptr .. => .error (.fault "pointer identity comparison not modelled")
  | .lowerFn .., .lowerFn .. => .error (.fault "reflect.Value.Equal on func-bearing struct")
  | .lowerSt .., .lowerSt .. => .error (.fault "reflect.Value.Equal on func-bearing struct")
  | .hostMethodVal _, .hostMethodVal _ => .error (.fault "reflect.Value.Equal on func values")
  | .hostFunc .., .hostFunc .. => .error (.fault "reflect.Value.Equal on func values")
  | .iface _, .iface _ => .error (.fault "interface comparison not modelled")
  | _, _ => .ok false

/-- Model of `reflect.Value.String()` as used by `arg.String()` in the
assignment closure (non-strings render as a kind marker). -/
def rvalString : RVal → String
  | .str s => s
  | v => "<" ++ kindName (kindOf v) ++ " Value>"

/-- Model of `reflect.Value.Len()` (`len` built-in): slices, strings
(byte length), and maps; other kinds panic. -/
def goLen (v : RVal) : Except Failure Int :=
  match v with
  | .slice elems => .ok (Int.ofNat elems.length)
  | .str s => .ok (Int.ofNat s.utf8ByteSize)
  | .rmap pairs => .ok (Int.ofNat pairs.length)
  | v => .error (.fault ("reflect: call of reflect.Value.Len on "
      ++ kindName (kindOf v) ++ " Value"))

/-- The name-checking loop of the `assignment` closure (env.go lines
21-35): each argument must be a string; for `$mutate` the name must
already be bound, for `$define` it must not be. -/
def checkNames (isMutate : Bool) (env : Environment) : List RVal → Option GoError
  | [] => none
  | arg :: rest =>
    if kindOf arg ≠ .string then some (.plainErr "programmer error")
    else
      let key := rvalString arg
      if isMutate then
        if (envGet env key).isNone then
          some (.plainErr ("variable " ++ goQuoteStr key ++ " does not exist"))
        else checkNames isMutate env rest
      else
        if (envGet env key).isSome then
          some (.plainErr ("variable " ++ goQuoteStr key ++ " already exists"))
        else checkNames isMutate env rest

/-- The binding loop of the assignment second step (env.go lines 41-43):
`env[lhs[i].String()] = rhs[i]`, left to right. -/
def bindAll (env : Environment) : List RVal → List RVal → Environment
  | [], _ => env
  | _, [] => env
  | l :: ls, r :: rs => bindAll (envSet env (rvalString l) r) ls rs

/-- Application of the native closures of `NewStandardEnvironment`
(env.go lines 10-60). -/
def applyNative (fn : NativeFn) (args : List RVal) (env : Environment) :
    Except Failure (List RVal) × Environment :=
  match fn with
  | .importFn => (.error (.err (.plainErr "import unsupported in this session")), env)
  | .assignNames m =>
    match checkNames m env args with
    | some e => (.error (.err e), env)
    | none => (.ok [.lowerFn env.id (.assignValues m args)], env)
  | .assignValues _ lhs =>
    if lhs.length ≠ args.length then
      (.error (.err (.plainErr ("variable definition expected a variable for each value ("
        ++ toString lhs.length ++ " != " ++ toString args.length ++ ")"))), env)
    else
      (.ok [], bindAll env lhs args)
  | .lenFn =>
    if args.length ≠ 1 then
      (.error (.err (.plainErr "len expected 1 argument")), env)
    else
      match goLen (args.headD .invalid) with
      | .error f => (.error f, env)
      | .ok n => (.ok [.int n], env)

/-- Model of `NewEnvironment` (the language core's constructor): only the
constants `nil`, `true`, `false`. -/
def NewEnvironment (id : Nat) : Environment :=
  { id := id
    binds := [("nil", .invalid), ("true", .bool true), ("false", .bool false)] }

/-- Model of `NewStandardEnvironment` (env.go lines 10-60): the constants
plus `$import`, `$define`, `$mutate` and `len`, each a `lowerFunc` owned
by this environment. -/
def NewStandardEnvironment (id : Nat) : Environment :=
  { id := id
    binds :=
      [("nil", .invalid), ("true", .bool true), ("false", .bool false),
       ("$import", .lowerFn id .importFn),
       ("$define", .lowerFn id (.assignNames false)),
       ("$mutate", .lowerFn id (.assignNames true)),
       ("len", .lowerFn id .lenFn)] }

/-- Operation type strings (`type OpType = string` and its constants). -/
abbrev OpType := String

def OpOrModNil : String := ""

def OpMul : OpType := "*"

def OpDiv : OpType := "/"

def OpAdd : OpType := "+"

def OpSub : OpType := "-"

def OpLess : OpType := "<"

def OpLessEqual : OpType := "<="

def OpEqual : OpType := "=="

def OpNotEqual : OpType := "!="

def OpGreater : OpType := ">"

def OpGreaterEqual : OpType := ">="

def OpAnd : OpType := "&&"

def OpOr : OpType := "||"

/-- Modifier type strings (`type ModType = string` and its constants). -/
abbrev ModType := String

def ModNeg : ModType := "-"

def ModNot : ModType := "!"

def ModRef : ModType := "&"

def ModDeref : ModType := "*"

/-- The AST (`Evaluable` implementations).  The parser can legitimately
store a nil `Evaluable` in `ArrayAccess.Index` and `SliceAccess.Low/High`
(it never nil-checks those subexpressions), hence the `Option Expr`
fields; running a nil node is a nil-pointer panic. -/
inductive Expr where
  | value (v : RVal)
  | ident (name : String) (pos : Pos)
  | fieldAccess (target : Expr) (field : String) (fieldPos : Pos) (pos : Pos)
  | arrayAccess (array : Expr) (index : Option Expr) (pos : Pos)
  | sliceAccess (array : Expr) (low : Option Expr) (high : Option Expr) (pos : Pos)
  | call (fn : Expr) (args : List Expr) (pos : Pos)
  | operation (ty : OpType) (left : Expr) (right : Expr) (pos : Pos)
  | modifier (ty : ModType) (val : Expr) (pos : Pos)
  | subexpression (expr : Expr) (pos : Pos)

/-- Model of `position.Err`: `fmt.Errorf("%w: line %d, column %d: %s", ...)`. -/
def posErr (kind : ErrKind) (pos : Pos) (msg : String) : GoError :=
  .posErr kind pos.line pos.col msg

/-- Model of `position.singleValue` applied to a `Run` result: an error
passes through, zero values collapse to `reflect.ValueOf(nil)` (the
invalid value), one value is returned, and more than one is a positioned
runtime error. -/
def singleValue (pos : Pos) (r : Except Failure (List RVal)) : Except Failure RVal :=
  match r with
  | .error e => .error e
  | .ok [] => .ok .invalid
  | .ok [v] => .ok v
  | .ok _ => .error (.err (posErr .runtime pos "multivalue result used in single value location"))

/-- The `tryAccess` closure of `FieldAccess.Run`: a method wins; a
struct-kind value always answers with its `FieldByName` result (the zero
Value when the field is absent); anything else is not found. -/
def tryAccess (v : RVal) (name : String) : Option (List RVal) :=
  match methodByName v name with
  | some m => some [m]
  | none => if kindOf v = .struct then some [fieldByName v name] else none

/-- The final no-match error of `FieldAccess.Run`. -/
def fieldAccessError (pos : Pos) (name : String) (v : RVal) : Except Failure (List RVal) :=
  .error (.err (posErr .typeMismatch pos
    ("tried to access field " ++ goQuoteStr name ++ " on value "
      ++ goQuoteVal v ++ ", " ++ kindName (kindOf v))))

/-- The non-lowerStruct path of `FieldAccess.Run`: `tryAccess` on the
value, then (for pointer/interface kinds) on its `Elem()`. -/
def fieldFallback (pos : Pos) (name : String) (v : RVal) : Except Failure (List RVal) :=
  match tryAccess v name with
  | some rv => .ok rv
  | none =>
    match elemOf v with
    | some inner =>
      match tryAccess inner name with
      | some rv => .ok rv
      | none => fieldAccessError pos name v
    | none => fieldAccessError pos name v

/-- Field dispatch of `FieldAccess.Run` after the target evaluated to a
single value: a `lowerStruct` owned by the current environment answers
from its sub-environment, everything else goes through `tryAccess`. -/
def fieldLookup (pos : Pos) (curEnvId : Nat) (name : String) (v : RVal) :
    Except Failure (List RVal) :=
  match v with
  | .lowerSt envId sub =>
    if envId = curEnvId then
      match sub.lookup name with
      | some fv => .ok [fv]
      | none => .error (.err (.wrappedErr .typeMismatch
          ("field " ++ goQuoteStr name ++ " in LowerStruct not found")))
    else fieldFallback pos name (.lowerSt envId sub)
  | v => fieldFallback pos name v

/-- Model of `reflect.Value.Index` on sequence kinds (string indexing is
modelled per character; claims only index value slices). -/
def goIndex (v : RVal) (i : Int) : Except Failure (List RVal) :=
  match v with
  | .slice elems =>
    if 0 ≤ i ∧ i < Int.ofNat elems.length then
      .ok [elems.getD i.toNat .invalid]
    else .error (.fault "reflect: slice index out of range")
  | .str s =>
    if 0 ≤ i ∧ i < Int.ofNat s.data.length then
      .ok [.int (Int.ofNat (s.data.getD i.toNat ' ').toNat)]
    else .error (.fault "reflect: string index out of range")
  | _ => .error (.fault "reflect: index on unexpected kind")

/-- Shallow key comparison for `reflect.Value.MapIndex` (map keys in the
claims never include aggregates). -/
def primKeyEq (a b : RVal) : Bool :=
  match a, b with
  | .invalid, .invalid => true
  | .bool x, .bool y => x = y
  | .int x, .int y => x = y
  | .duration x, .duration y => x = y
  | .float x, .float y => x = y
  | .str x, .str y => x = y
  | _, _ => false

/-- Model of `reflect.Value.MapIndex`: a missing key yields the zero
Value. -/
def mapIndex (pairs : List (RVal × RVal)) (key : RVal) : RVal :=
  match pairs.find? (fun p => primKeyEq p.1 key) with
  | some p => p.2
  | none => .invalid

/-- The kind dispatch of `ArrayAccess.Run` after both the target and the
index evaluated to single values. -/
def indexEval (pos : Pos) (v index : RVal) : Except Failure (List RVal) :=
  match kindOf v with
  | .slice =>
    if ¬ canInt index then
      .error (.err (posErr .typeMismatch pos ("index " ++ goQuoteVal index ++ " is not an int")))
    else goIndex v (rvalInt index)
  | .string =>
    if ¬ canInt index then
      .error (.err (posErr .typeMismatch pos ("index " ++ goQuoteVal index ++ " is not an int")))
    else goIndex v (rvalInt index)
  | .map =>
    match v with
    | .rmap pairs => .ok [mapIndex pairs index]
    | _ => .error (.fault "map kind on non-map value")
  | _ =>
    .error (.err (posErr .typeMismatch pos ("tried to access index " ++ goQuoteVal index
      ++ " on value " ++ goQuoteVal v ++ " (" ++ kindName (kindOf v) ++ ")")))

/-- Model of `reflect.Value.Slice` on sequence kinds (string slicing is
modelled per character; claims only slice value slices). -/
def goSlice (v : RVal) (lo hi : Int) : Except Failure (List RVal) :=
  match v with
  | .slice elems =>
    if 0 ≤ lo ∧ lo ≤ hi ∧ hi ≤ Int.ofNat elems.length then
      .ok [.slice ((elems.drop lo.toNat).take (hi - lo).toNat)]
    else .error (.fault "reflect: slice bounds out of range")
  | .str s =>
    if 0 ≤ lo ∧ lo ≤ hi ∧ hi ≤ Int.ofNat s.data.length then
      .ok [.str (String.mk ((s.data.drop lo.toNat).take (hi - lo).toNat))]
    else .error (.fault "reflect: string slice bounds out of range")
  | _ => .error (.fault "reflect: slice on unexpected kind")

/-- The kind and bound checks of `SliceAccess.Run` (env.go lines
1022-1033) after the target and both bound values are in hand. -/
def sliceEval (pos : Pos) (v l h : RVal) : Except Failure (List RVal) :=
  if ¬ (kindOf v = .slice ∨ kindOf v = .string) then
    .error (.err (posErr .typeMismatch pos ("tried to slice value " ++ goQuoteVal v)))
  else if ¬ canInt l then
    .error (.err (posErr .typeMismatch pos ("slice index " ++ goQuoteVal l ++ " not an int")))
  else if ¬ canInt h then
    .error (.err (posErr .typeMismatch pos ("slice index " ++ goQuoteVal h ++ " not an int")))
  else goSlice v (rvalInt l) (rvalInt h)

/-- Invocation of a callee that is not a `lowerFunc` of the current
environment: `fn.Call(args)`.  Non-func kinds panic in Go; host function
behaviour itself is outside the model (no claim invokes one). -/
def hostCall (fn : RVal) (args : List RVal) : Except Failure (List RVal) :=
  match fn with
  | .hostFunc arity results =>
    if args.length = arity then .ok results
    else .error (.fault "reflect: Call with wrong number of input arguments")
  | .hostMethodVal name => .error (.fault ("host method call not modelled: " ++ name))
  | v => .error (.fault ("reflect: call of reflect.Value.Call on "
      ++ kindName (kindOf v) ++ " Value"))

/-- The `Modifier.Run` dispatch after the operand evaluated to a single
value: `!` inverts bools, `&` panics (no addressable values in the
model), `*` dereferences pointer/interface values, and everything else —
including the declared-but-unimplemented negation `-` — is an
unknown-operator error. -/
def modifierEval (pos : Pos) (ty : ModType) (val : RVal) : Except Failure (List RVal) :=
  if ty = ModNot ∧ kindOf val = .bool then
    match val with
    | .bool b => .ok [.bool (!b)]
    | _ => .error (.fault "bool kind on non-bool value")
  else if ty = ModRef then
    .error (.fault "reflect: reflect.Value.Addr of unaddressable value")
  else if ty = ModDeref then
    match elemOf val with
    | some inner => .ok [inner]
    | none => .error (.fault ("reflect: call of reflect.Value.Elem on "
        ++ kindName (kindOf val) ++ " Value"))
  else .error (.err (posErr .unknownOp pos (goQuoteStr ty)))

mutual

/-- The `Run(env)` contract of every `Evaluable`, with the environment
threaded explicitly (Go mutates the map in place). -/
def Run : Expr → Environment → Except Failure (List RVal) × Environment
  | .value v, env => (.ok [v], env)
  | .ident name _, env =>
    match envGet env name with
    | some v => (.ok [v], env)
    | none => (.error (.err (.wrappedErr .unboundVar (goQuoteStr name))), env)
  | .subexpression e _, env => Run e env
  | .fieldAccess target name _fieldPos pos, env =>
    let res := Run target env
    match singleValue pos res.1 with
    | .error e => (.error e, res.2)
    | .ok v => (fieldLookup pos res.2.id name v, res.2)
  | .arrayAccess arr idx pos, env =>
    let res := Run arr env
    match singleValue pos res.1 with
    | .error e => (.error e, res.2)
    | .ok v =>
      let resI := runOpt idx res.2
      match singleValue pos resI.1 with
      | .error e => (.error e, resI.2)
      | .ok index => (indexEval pos v index, resI.2)
  | .sliceAccess arr lo _high pos, env =>
    let res := Run arr env
    match singleValue pos res.1 with
    | .error e => (.error e, res.2)
    | .ok v =>
      let resL := runOpt lo res.2
      match singleValue pos resL.1 with
      | .error e => (.error e, resL.2)
      | .ok l =>
        -- Faithful to env.go line 1018: the source runs `a.Low` again
        -- here; the parsed `High` expression is never evaluated.
        let resH := runOpt lo resL.2
        match singleValue pos resH.1 with
        | .error e => (.error e, resH.2)
        | .ok h => (sliceEval pos v l h, resH.2)
  | .call fnE argsE pos, env =>
    let resF := Run fnE env
    match singleValue pos resF.1 with
    | .error e => (.error e, resF.2)
    | .ok fn =>
      let resA :=
        match argsE with
        | [a] => Run a resF.2
        | other => runArgsEach pos other resF.2
      match resA.1 with
      | .error e => (.error e, resA.2)
      | .ok args =>
        match fn with
        | .lowerFn envId nf =>
          if envId = resA.2.id then applyNative nf args resA.2
          else (hostCall (.lowerFn envId nf) args, resA.2)
        | fn => (hostCall fn args, resA.2)
  | .operation ty l r pos, env =>
    let resL := Run l env
    match singleValue pos resL.1 with
    | .error e => (.error e, resL.2)
    | .ok left =>
      if ty = OpEqual ∨ ty = OpNotEqual then
        let resR := Run r resL.2
        match singleValue pos resR.1 with
        | .error e => (.error e, resR.2)
        | .ok right =>
          match rvalEqual left right with
          | .error f => (.error f, resR.2)
          | .ok rv => (.ok [.bool (if ty = OpNotEqual then !rv else rv)], resR.2)
      else if ty = OpAnd then
        match goBool left with
        | .error f => (.error f, resL.2)
        | .ok b =>
          if !b then (.ok [left], resL.2)
          else
            let resR := Run r resL.2
            match singleValue pos resR.1 with
            | .error e => (.error e, resR.2)
            | .ok rv => (.ok [rv], resR.2)
      else if ty = OpOr then
        match goBool left with
        | .error f => (.error f, resL.2)
        | .ok b =>
          if b then (.ok [left], resL.2)
          else
            let resR := Run r resL.2
            match singleValue pos resR.1 with
            | .error e => (.error e, resR.2)
            | .ok rv => (.ok [rv], resR.2)
      else
        (.error (.err (posErr .unknownOp pos (goQuoteStr ty))), resL.2)
  | .modifier ty vE pos, env =>
    let res := Run vE env
    match singleValue pos res.1 with
    | .error e => (.error e, res.2)
    | .ok val => (modifierEval pos ty val, res.2)
termination_by structural e _ => e

/-- Running an `Evaluable` field that may hold Go's nil interface:
calling `Run` on nil is a nil-pointer panic. -/
def runOpt : Option Expr → Environment → Except Failure (List RVal) × Environment
  | none, env =>
    (.error (.fault "runtime error: invalid memory address or nil pointer dereference"), env)
  | some e, env => Run e env
termination_by structural oe _ => oe

/-- The per-argument loop of `Call.Run` for calls that do not take the
single-argument spread path: each argument must be single-valued. -/
def runArgsEach (pos : Pos) : List Expr → Environment → Except Failure (List RVal) × Environment
  | [], env => (.ok [], env)
  | e :: rest, env =>
    let res := Run e env
    match res.1 with
    | .error er => (.error er, res.2)
    | .ok results =>
      match singleValue pos (.ok results) with
      | .error er => (.error er, res.2)
      | .ok v =>
        let resR := runArgsEach pos rest res.2
        match resR.1 with
        | .error er => (.error er, resR.2)
        | .ok vs => (.ok (v :: vs), resR.2)
termination_by structural es _ => es

end

/-! The parser.  The source's `Parser` struct mutates its position in
place and caches `currentChar`; the model passes the state explicitly
(every parsing function takes a `ParserState` and returns the next one)
and derives the current character from `source` and `position.offset`,
with `Option Char` playing the role of the `-1` end-of-input rune.  The
source's internal scanning loops each advance the offset by at least one
character per iteration, so they take a local fuel computed from the
remaining input; the recursive expression grammar is tied through
`parseExpression`, whose fuel bounds the nesting depth of expression
entries, each of which consumes at least one bracket character. -/

/-- Parser state: the rune slice and the current `position`. -/
structure ParserState where
  source : List Char
  pos : Pos

/-- Result of a parsing step: Go's `(value, error)` return plus the
threaded parser state. -/
abbrev PRes (α : Type) := Except GoError (α × ParserState)

/-- Model of `Parser.char(lookahead)`: `none` is the `-1` eof rune. -/
def pchar (st : ParserState) (lookahead : Nat) : Option Char :=
  st.source[st.pos.offset + lookahead]?

/-- The parser's current character. -/
def currentChar (st : ParserState) : Option Char :=
  pchar st 0

/-- Model of `Parser.eof`. -/
def isEof (st : ParserState) : Bool :=
  st.pos.offset ≥ st.source.length

/-- Model of `Parser.advance`: errors with `unexpected eof` when asked to
step past the end, and tracks line/column across newlines. -/
def advance : Nat → ParserState → Except GoError ParserState
  | 0, st => .ok st
  | Nat.succ n, st =>
    if st.pos.offset ≥ st.source.length then
      .error (.plainErr "unexpected eof")
    else
      let c := st.source[st.pos.offset]?.getD ' '
      let pos' :=
        if c = '\n' then
          { offset := st.pos.offset + 1, line := st.pos.line + 1, col := 1 }
        else
          { offset := st.pos.offset + 1, line := st.pos.line, col := st.pos.col + 1 }
      advance n { st with pos := pos' }
termination_by structural n _ => n

/-- Model of `Parser.checkpoint`. -/
def checkpoint (st : ParserState) : Pos :=
  st.pos

/-- Model of `Parser.restore` (the cached current char is derived). -/
def restore (st : ParserState) (p : Pos) : ParserState :=
  { st with pos := p }

/-- Model of `Parser.sourceError`: a parser error at the current
position. -/
def sourceError (st : ParserState) (msg : String) : GoError :=
  .posErr .parser st.pos.line st.pos.col msg

/-- Model of `Parser.string(width)`: up to `width` runes of remaining
input (the clamp is implicit in `List.take`). -/
def pstring (st : ParserState) (width : Nat) : String :=
  String.mk ((st.source.drop st.pos.offset).take width)

/-- Remaining input as a string (for the `unparsed input` error). -/
def remainingStr (st : ParserState) : String :=
  String.mk (st.source.drop st.pos.offset)

/-- Fuel bound for the parser's internal scanning loops: each iteration
advances at least one character, so `remaining + 1` iterations suffice. -/
def remFuel (st : ParserState) : Nat :=
  st.source.length - st.pos.offset + 1

/-- Model of `charRepr`. -/
def charRepr : Option Char → String
  | none => "eof"
  | some c => goQuoteStr (String.singleton c)

/-- Scanning loop of `skipComment`. -/
def skipCommentLoop (commentEnd : String) : Nat → ParserState → PRes Bool
  | 0, _ => .error (.plainErr "parser fuel exhausted")
  | Nat.succ n, st =>
    if isEof st then .ok (true, st)
    else if pstring st commentEnd.utf8ByteSize = commentEnd then
      match advance commentEnd.utf8ByteSize st with
      | .error e => .error e
      | .ok st1 => .ok (true, st1)
    else
      match advance 1 st with
      | .error e => .error e
      | .ok st1 => skipCommentLoop commentEnd n st1
termination_by structural n _ => n

/-- Model of `Parser.skipComment`: line comments run to a newline, block
comments to the explicit terminator. -/
def skipComment (st : ParserState) : PRes Bool :=
  let current := pstring st 2
  let commentEnd :=
    if current = "//" then "\n"
    else if current = "/*" then "*/"
    else ""
  if commentEnd = "" then .ok (false, st)
  else
    match advance 2 st with
    | .error e => .error e
    | .ok st1 => skipCommentLoop commentEnd (remFuel st1) st1

/-- Model of `Parser.skipWhitespace`. -/
def skipWhitespace (st : ParserState) : PRes Bool :=
  if isEof st then .ok (false, st)
  else
    match skipComment st with
    | .error e => .error e
    | .ok (true, st1) => .ok (true, st1)
    | .ok (false, st1) =>
      match currentChar st1 with
      | some ' ' | some '\t' | some '\r' | some '\n' =>
        (match advance 1 st1 with
         | .error e => .error e
         | .ok st2 => .ok (true, st2))
      | _ => .ok (false, st1)

/-- Loop of `skipAllWhitespace`. -/
def skipAllLoop : Nat → Bool → ParserState → PRes Bool
  | 0, _, _ => .error (.plainErr "parser fuel exhausted")
  | Nat.succ n, anySkipped, st =>
    match skipWhitespace st with
    | .error e => .error e
    | .ok (true, st1) => skipAllLoop n true st1
    | .ok (false, st1) => .ok (anySkipped, st1)
termination_by structural n _ _ => n

/-- Model of `Parser.skipAllWhitespace`. -/
def skipAllWhitespace (st : ParserState) : PRes Bool :=
  skipAllLoop (remFuel st) false st

/-- Model of `isIdentifierChar`; `unicode.IsLetter`/`IsDigit` are
approximated by their ASCII fragments (every claim input is ASCII). -/
def isIdentifierChar (c : Char) : Bool :=
  c = '_' || c.isAlpha || c.isDigit

/-- Identifier-char test lifted to the eof-bearing current char (the
`-1` rune is not an identifier char). -/
def isIdentifierCharO : Option Char → Bool
  | some c => isIdentifierChar c
  | none => false

/-- Digit test lifted to the eof-bearing current char. -/
def isDigitO : Option Char → Bool
  | some c => c.isDigit
  | none => false

/-- Scanning loop of `parseChars`. -/
def parseCharsLoop (allowed : Char → Bool) : Nat → String → ParserState → PRes String
  | 0, _, _ => .error (.plainErr "parser fuel exhausted")
  | Nat.succ n, acc, st =>
    match currentChar st with
    | some c =>
      if allowed c then
        match advance 1 st with
        | .error e => .error e
        | .ok st1 => parseCharsLoop allowed n (acc.push c) st1
      else .ok (acc, st)
    | none => .ok (acc, st)
termination_by structural n _ _ => n

/-- Model of `Parser.parseChars`: the longest run of allowed characters
from the current position. -/
def parseChars (allowed : Char → Bool) (st : ParserState) : PRes String :=
  match currentChar st with
  | some c =>
    if allowed c then
      match advance 1 st with
      | .error e => .error e
      | .ok st1 => parseCharsLoop allowed (remFuel st1) (String.singleton c) st1
    else .ok ("", st)
  | none => .ok ("", st)

/-- Model of `Parser.parseIdentifier`: `none`, faithfully to the source,
stands for the `(nil, nil)` no-parse return. -/
def parseIdentifier (st : ParserState) : PRes (Option (String × Pos)) :=
  let cp := checkpoint st
  if isDigitO (currentChar st) then .ok (none, st)
  else
    match parseChars isIdentifierChar st with
    | .error e => .error e
    | .ok (chars, st1) =>
      match skipAllWhitespace st1 with
      | .error e => .error e
      | .ok (_, st2) =>
        if chars = "" then .ok (none, st2)
        else .ok (some (chars, cp), st2)

/-- The `durationSuffixes` list, in source order (order matters: `ns`
must be tried before `s`). -/
def durationSuffixes : List String :=
  ["ns", "us", "µs", "ms", "s", "m", "h"]

/-- Model of `Parser.parseDurationSuffix`.  The source measures suffixes
with Go's byte-length `len` but slices runes, a conflation the model
reproduces via `utf8ByteSize`. -/
def parseDurationSuffixLoop : List String → ParserState → PRes String
  | [], st => .ok ("", st)
  | sfx :: rest, st =>
    if pstring st sfx.utf8ByteSize = sfx then
      match advance sfx.utf8ByteSize st with
      | .error e => .error e
      | .ok st1 => .ok (sfx, st1)
    else parseDurationSuffixLoop rest st
termination_by structural l _ => l

/-- Try each duration suffix in order. -/
def parseDurationSuffix (st : ParserState) : PRes String :=
  parseDurationSuffixLoop durationSuffixes st

/-- Model of `isUniquelyFloatingPointChar`. -/
def isUniquelyFloatingPointChar (c : Char) : Bool :=
  match c with
  | '.' | 'e' | 'E' | '+' | '-' | 'p' | 'P' => true
  | _ => false

/-- Model of `isNumberChar`. -/
def isNumberChar (c : Char) : Bool :=
  c.isDigit || isUniquelyFloatingPointChar c ||
    (match c with
     | 'b' | 'B' | 'o' | 'O' => true
     | 'x' | 'X' | 'a' | 'A' | 'c' | 'C' | 'd' | 'D' | 'f' | 'F' => true
     | '_' => true
     | _ => false)

/-- Model of `stringContains`. -/
def stringContains (val : String) (matcher : Char → Bool) : Bool :=
  val.data.any matcher

/-- Hex/decimal digit value. -/
def digitVal (c : Char) : Option Nat :=
  if c.isDigit then some (c.toNat - '0'.toNat)
  else if 'a' ≤ c ∧ c ≤ 'f' then some (c.toNat - 'a'.toNat + 10)
  else if 'A' ≤ c ∧ c ≤ 'F' then some (c.toNat - 'A'.toNat + 10)
  else none

/-- Digit-run accumulator for the `strconv.ParseInt` model; underscores
are accepted as separators wherever they appear (Go validates their
placement more strictly — no claim input contains one). -/
def parseDigitsAux (base : Nat) : List Char → Nat → Bool → Option Nat
  | [], acc, sawDigit => if sawDigit then some acc else none
  | c :: rest, acc, sawDigit =>
    if c = '_' then parseDigitsAux base rest acc sawDigit
    else
      match digitVal c with
      | some d => if d < base then parseDigitsAux base rest (acc * base + d) true else none
      | none => none
termination_by structural l _ _ => l

/-- Model of `strconv.ParseInt(s, 0, 64)` for the digit-leading,
sign-free inputs `parseNumber` can produce: base prefixes `0x`/`0b`/`0o`,
a bare leading zero meaning octal, and the int64 range check. -/
def goParseInt64 (s : String) : Except GoError Int :=
  let cs := s.data
  let p : Nat × List Char :=
    match cs with
    | '0' :: 'x' :: rest => (16, rest)
    | '0' :: 'X' :: rest => (16, rest)
    | '0' :: 'b' :: rest => (2, rest)
    | '0' :: 'B' :: rest => (2, rest)
    | '0' :: 'o' :: rest => (8, rest)
    | '0' :: 'O' :: rest => (8, rest)
    | '0' :: c :: rest => (8, c :: rest)
    | _ => (10, cs)
  match parseDigitsAux p.1 p.2 0 false with
  | none => .error (.plainErr ("strconv.ParseInt: parsing " ++ goQuoteStr s
      ++ ": invalid syntax"))
  | some n =>
    if n > 9223372036854775807 then
      .error (.plainErr ("strconv.ParseInt: parsing " ++ goQuoteStr s
        ++ ": value out of range"))
    else .ok (Int.ofNat n)

/-- Mantissa well-formedness for the `strconv.ParseFloat` model: digits
with at most one decimal point and at least one digit. -/
def checkMantissa (isHex : Bool) (cs : List Char) (sawDigit sawDot : Bool) : Bool :=
  match cs with
  | [] => sawDigit
  | c :: rest =>
    if c = '_' then checkMantissa isHex rest sawDigit sawDot
    else if c = '.' then
      if sawDot then false else checkMantissa isHex rest sawDigit true
    else if (if isHex then (digitVal c).isSome else c.isDigit) then
      checkMantissa isHex rest true sawDot
    else false
termination_by structural cs

/-- Exponent well-formedness: an optional sign then at least one decimal
digit. -/
def checkExponent (cs : List Char) : Bool :=
  match cs with
  | '+' :: rest => decide (rest ≠ []) && rest.all Char.isDigit
  | '-' :: rest => decide (rest ≠ []) && rest.all Char.isDigit
  | rest => decide (rest ≠ []) && rest.all Char.isDigit

/-- Split a character list at the first occurrence of one of the given
exponent markers. -/
def splitAtFirst (markers : List Char) : List Char → Option (List Char × List Char)
  | [] => none
  | c :: rest =>
    if markers.contains c then some ([], rest)
    else
      match splitAtFirst markers rest with
      | some p => some (c :: p.1, p.2)
      | none => none
termination_by structural l => l

/-- Model of `strconv.ParseFloat(s, 64)` as a well-formedness check; the
numeric value is kept as the literal text (`RVal.float`), since no claim
computes with floats.  Decimal and hex-float shapes are validated;
out-of-range handling is not modelled. -/
def goParseFloat (s : String) : Except GoError RVal :=
  let bad : Except GoError RVal :=
    .error (.plainErr ("strconv.ParseFloat: parsing " ++ goQuoteStr s
      ++ ": invalid syntax"))
  let cs := s.data
  match cs with
  | '0' :: 'x' :: rest =>
    (match splitAtFirst ['p', 'P'] rest with
     | some p => if checkMantissa true p.1 false false ∧ checkExponent p.2 then .ok (.float s) else bad
     | none => bad)
  | '0' :: 'X' :: rest =>
    (match splitAtFirst ['p', 'P'] rest with
     | some p => if checkMantissa true p.1 false false ∧ checkExponent p.2 then .ok (.float s) else bad
     | none => bad)
  | _ =>
    match splitAtFirst ['e', 'E'] cs with
    | some p => if checkMantissa false p.1 false false ∧ checkExponent p.2 then .ok (.float s) else bad
    | none => if checkMantissa false cs false false then .ok (.float s) else bad

/-- Nanoseconds per duration unit. -/
def durationUnitNanos (u : String) : Nat :=
  if u = "ns" then 1
  else if u = "us" then 1000
  else if u = "µs" then 1000
  else if u = "ms" then 1000000
  else if u = "s" then 1000000000
  else if u = "m" then 60000000000
  else 3600000000000

/-- Model of `time.ParseDuration(num + suffix)` restricted to the shapes
`parseNumber` produces: an integral decimal count and one unit; the
fractional and multi-component duration syntax is not modelled (no claim
evaluates durations). -/
def goParseDuration (num : String) (suffix : String) : Except GoError Int :=
  if num ≠ "" ∧ num.data.all Char.isDigit then
    match parseDigitsAux 10 num.data 0 false with
    | some n =>
      if n * durationUnitNanos suffix ≤ 9223372036854775807 then
        .ok (Int.ofNat (n * durationUnitNanos suffix))
      else .error (.plainErr ("time: invalid duration " ++ goQuoteStr (num ++ suffix)))
    | none => .error (.plainErr ("time: invalid duration " ++ goQuoteStr (num ++ suffix)))
  else .error (.plainErr ("time: invalid duration " ++ goQuoteStr (num ++ suffix)))

/-- Model of `Parser.parseNumber`: a digit-leading run of number
characters, an optional duration suffix, then duration, float, or int64
interpretation; the `strconv`/`time` errors are returned without a
position. -/
def parseNumber (st : ParserState) : PRes (Option Expr) :=
  if ¬ isDigitO (currentChar st) then .ok (none, st)
  else
    match parseChars isNumberChar st with
    | .error e => .error e
    | .ok (num, st1) =>
      match parseDurationSuffix st1 with
      | .error e => .error e
      | .ok (suffix, st2) =>
        match skipAllWhitespace st2 with
        | .error e => .error e
        | .ok (_, st3) =>
          if num = "" then .ok (none, st3)
          else if suffix ≠ "" then
            match goParseDuration num suffix with
            | .error e => .error e
            | .ok ns => .ok (some (.value (.duration ns)), st3)
          else if stringContains num isUniquelyFloatingPointChar then
            match goParseFloat num with
            | .error e => .error e
            | .ok v => .ok (some (.value v), st3)
          else
            match goParseInt64 num with
            | .error e => .error e
            | .ok n => .ok (some (.value (.int n)), st3)

/-- Scanning loop of `parseString` past the opening quote: handles the
four escapes, ends at a bare quote, and errors on a bare newline; hitting
end of input makes `advance` fail with the plain `unexpected eof`. -/
def parseStringLoop : Nat → List Char → ParserState → PRes Expr
  | 0, _, _ => .error (.plainErr "parser fuel exhausted")
  | Nat.succ n, acc, st =>
    let r := currentChar st
    match advance 1 st with
    | .error e => .error e
    | .ok st1 =>
      match r with
      | some '\\' =>
        let r2 := currentChar st1
        (match advance 1 st1 with
         | .error e => .error e
         | .ok st2 =>
           match r2 with
           | some '\\' => parseStringLoop n (acc ++ ['\\']) st2
           | some '"' => parseStringLoop n (acc ++ ['"']) st2
           | some 'n' => parseStringLoop n (acc ++ ['\n']) st2
           | some 't' => parseStringLoop n (acc ++ ['\t']) st2
           | other => .error (sourceError st2 ("unexpected escape code: " ++ charRepr other)))
      | some '"' =>
        (match skipAllWhitespace st1 with
         | .error e => .error e
         | .ok (_, st2) => .ok (.value (.str (String.mk acc)), st2))
      | some '\n' => .error (sourceError st1 "unexpected end of line")
      | some c => parseStringLoop n (acc ++ [c]) st1
      | none => .error (.plainErr "unexpected eof")
termination_by structural n _ _ => n

/-- Model of `Parser.parseString` (the string literal). -/
def parseString (st : ParserState) : PRes (Option Expr) :=
  if pchar st 0 ≠ some '"' then .ok (none, st)
  else
    match advance 1 st with
    | .error e => .error e
    | .ok st1 =>
      match parseStringLoop (remFuel st1) [] st1 with
      | .error e => .error e
      | .ok (v, st2) => .ok (some v, st2)

/-- Model of `Parser.parseLiteral`: string, then identifier, then
number. -/
def parseLiteral (st : ParserState) : PRes (Option Expr) :=
  match parseString st with
  | .error e => .error e
  | .ok (some s, st1) => .ok (some s, st1)
  | .ok (none, st1) =>
    match parseIdentifier st1 with
    | .error e => .error e
    | .ok (some f, st2) => .ok (some (.ident f.1 f.2), st2)
    | .ok (none, st2) => parseNumber st2

/-- Model of `Parser.parseFieldAccess` (no recursion into the expression
grammar). -/
def parseFieldAccess (val : Expr) (st : ParserState) : PRes (Option Expr) :=
  let cp := checkpoint st
  if pchar st 0 ≠ some '.' then .ok (none, st)
  else
    match advance 1 st with
    | .error e => .error e
    | .ok st1 =>
      match skipAllWhitespace st1 with
      | .error e => .error e
      | .ok (_, st2) =>
        match parseIdentifier st2 with
        | .error e => .error e
        | .ok (none, st3) => .ok (none, restore st3 cp)
        | .ok (some f, st3) => .ok (some (.fieldAccess val f.1 f.2 cp), st3)

/-- Lowercasing as `strings.ToLower` (ASCII fragment; every operator
spelling is symbol-only, so case never actually matters). -/
def charToLower (c : Char) : Char :=
  if 'A' ≤ c ∧ c ≤ 'Z' then Char.ofNat (c.toNat + 32) else c

/-- String lowercasing over the character list. -/
def strToLower (s : String) : String :=
  String.mk (s.data.map charToLower)

/-- Model of `Parser.isBoundary`. -/
def isBoundary (char1 char2 : Option Char) : Bool :=
  !isIdentifierCharO char1 || !isIdentifierCharO char2

/-- The inner operator loop of `parseOpAndRHS` over one class's operator
spellings: a spelling matches case-insensitively at a token boundary; a
match whose right-hand side fails to parse restores the checkpoint and
tries the next spelling. -/
def parseOpList (valueParse : ParserState → PRes (Option Expr)) (cpos : Pos)
    (cls : String) : List String → ParserState → PRes (Option (String × Expr))
  | [], st => .ok (none, st)
  | op :: rest, st =>
    let opLen := op.utf8ByteSize
    if strToLower (pstring st opLen) = op ∧
        isBoundary (pchar st (opLen - 1)) (pchar st opLen) then
      match advance opLen st with
      | .error e => .error e
      | .ok st1 =>
        match skipAllWhitespace st1 with
        | .error e => .error e
        | .ok (_, st2) =>
          match valueParse st2 with
          | .error e => .error e
          | .ok (some rhs, st3) => .ok (some (cls, rhs), st3)
          | .ok (none, st3) => parseOpList valueParse cpos cls rest (restore st3 cpos)
    else parseOpList valueParse cpos cls rest st
termination_by structural l _ => l

/-- The outer class loop of `parseOpAndRHS`.  The source ranges over a Go
map in randomized order; the model fixes source declaration order (every
claim input is order-independent). -/
def parseOpClasses (valueParse : ParserState → PRes (Option Expr)) (cpos : Pos) :
    List (String × List String) → ParserState → PRes (Option (String × Expr))
  | [], st => .ok (none, st)
  | c :: restClasses, st =>
    match parseOpList valueParse cpos c.1 c.2 st with
    | .error e => .error e
    | .ok (some r, st1) => .ok (some r, st1)
    | .ok (none, st1) => parseOpClasses valueParse cpos restClasses st1
termination_by structural l _ => l

/-- Model of `parseOpAndRHS`. -/
def parseOpAndRHS (valueParse : ParserState → PRes (Option Expr))
    (opMap : List (String × List String)) (st : ParserState) :
    PRes (Option (String × Expr)) :=
  let cpos := checkpoint st
  parseOpClasses valueParse cpos opMap st

/-- The binary-operation loop of `Parser.parseOperation`, fuelled by the
remaining input (each iteration consumes at least the operator). -/
def parseOperationLoop (valueParse : ParserState → PRes (Option Expr))
    (opMap : List (String × List String)) : Nat → Expr → ParserState → PRes Expr
  | 0, _, _ => .error (.plainErr "parser fuel exhausted")
  | Nat.succ n, val, st =>
    if isEof st then .ok (val, st)
    else
      let cp := checkpoint st
      match parseOpAndRHS valueParse opMap st with
      | .error e => .error e
      | .ok (none, st1) => .ok (val, st1)
      | .ok (some r, st1) =>
        parseOperationLoop valueParse opMap n (.operation r.1 val r.2 cp) st1
termination_by structural n _ _ => n

/-- Model of `Parser.parseOperation`. -/
def parseOperation (valueParse : ParserState → PRes (Option Expr))
    (opMap : List (String × List String)) (st : ParserState) : PRes (Option Expr) :=
  match valueParse st with
  | .error e => .error e
  | .ok (none, st1) => .ok (none, st1)
  | .ok (some val, st1) =>
    match parseOperationLoop valueParse opMap (remFuel st1) val st1 with
    | .error e => .error e
    | .ok (v, st2) => .ok (some v, st2)

/-- Model of `Parser.parseModifier`. -/
def parseModifier (valueParse : ParserState → PRes (Option Expr))
    (modMap : List (String × List String)) (st : ParserState) : PRes (Option Expr) :=
  let cp := checkpoint st
  match parseOpAndRHS valueParse modMap st with
  | .error e => .error e
  | .ok (some r, st1) => .ok (some (.modifier r.1 r.2 cp), st1)
  | .ok (none, st1) => valueParse st1

/-- The shared `]`-consuming tail of `parseArrayAccess`. -/
def finishArrayAccess (node : Expr) (st : ParserState) : PRes Expr :=
  if pchar st 0 ≠ some ']' then .error (sourceError st "expected end of array access")
  else
    match advance 1 st with
    | .error e => .error e
    | .ok st1 =>
      match skipAllWhitespace st1 with
      | .error e => .error e
      | .ok (_, st2) => .ok (node, st2)

/-! The expression grammar.  Go's `Parser` methods call each other
recursively through the receiver; the model passes the top-level
expression parser explicitly as the `parseExpr` argument of each level,
and ties the knot in `parseExpression`, whose fuel counts nested
expression entries.  Every nested entry sits behind at least one consumed
bracket, parenthesis or comma, so `length + 2` fuel (supplied by `Parse`)
is always sufficient. -/

/-- Model of `Parser.parseArrayAccess`: index or slice access.  The
source never nil-checks the parsed bound expressions, hence the `Option
Expr` payloads. -/
def parseArrayAccess (parseExpr : ParserState → PRes (Option Expr))
    (val : Expr) (st : ParserState) : PRes (Option Expr) :=
  if pchar st 0 ≠ some '[' then .ok (none, st)
  else
    let cp := checkpoint st
    match advance 1 st with
    | .error e => .error e
    | .ok st1 =>
      match skipAllWhitespace st1 with
      | .error e => .error e
      | .ok (_, st2) =>
        match parseExpr st2 with
        | .error e => .error e
        | .ok (low, st3) =>
          if pchar st3 0 = some ':' then
            match advance 1 st3 with
            | .error e => .error e
            | .ok st4 =>
              match skipAllWhitespace st4 with
              | .error e => .error e
              | .ok (_, st5) =>
                match parseExpr st5 with
                | .error e => .error e
                | .ok (high, st6) =>
                  match finishArrayAccess (Expr.sliceAccess val low high cp) st6 with
                  | .error e => .error e
                  | .ok (v, st7) => .ok (some v, st7)
          else
            match finishArrayAccess (Expr.arrayAccess val low cp) st3 with
            | .error e => .error e
            | .ok (v, st4) => .ok (some v, st4)

/-- The comma-separated tail loop of `parseArgs` (each iteration
consumes at least the comma or closing parenthesis, so it runs on the
local remaining-input fuel). -/
def parseArgsLoop (parseExpr : ParserState → PRes (Option Expr)) :
    Nat → List Expr → ParserState → PRes (List Expr)
  | 0, _, _ => .error (.plainErr "parser fuel exhausted")
  | Nat.succ n, args, st =>
    if pchar st 0 = some ')' then
      match advance 1 st with
      | .error e => .error e
      | .ok st1 =>
        match skipAllWhitespace st1 with
        | .error e => .error e
        | .ok (_, st2) => .ok (args, st2)
    else if pchar st 0 ≠ some ',' then
      .error (sourceError st ("unexpected character " ++ charRepr (pchar st 0)))
    else
      match advance 1 st with
      | .error e => .error e
      | .ok st1 =>
        match skipAllWhitespace st1 with
        | .error e => .error e
        | .ok (_, st2) =>
          match parseExpr st2 with
          | .error e => .error e
          | .ok (none, st3) => .error (sourceError st3 "unexpected missing argument")
          | .ok (some arg, st3) => parseArgsLoop parseExpr n (args ++ [arg]) st3
termination_by structural n _ _ => n

/-- Model of `Parser.parseArgs`: `none` when there is no argument list at
all. -/
def parseArgs (parseExpr : ParserState → PRes (Option Expr))
    (st : ParserState) : PRes (Option (List Expr)) :=
  if pchar st 0 ≠ some '(' then .ok (none, st)
  else
    match advance 1 st with
    | .error e => .error e
    | .ok st1 =>
      match skipAllWhitespace st1 with
      | .error e => .error e
      | .ok (_, st2) =>
        if pchar st2 0 = some ')' then
          match advance 1 st2 with
          | .error e => .error e
          | .ok st3 =>
            match skipAllWhitespace st3 with
            | .error e => .error e
            | .ok (_, st4) => .ok (some [], st4)
        else
          match parseExpr st2 with
          | .error e => .error e
          | .ok (none, st3) => .error (sourceError st3 "unexpected missing argument")
          | .ok (some arg, st3) =>
            match parseArgsLoop parseExpr (remFuel st3) [arg] st3 with
            | .error e => .error e
            | .ok (args, st4) => .ok (some args, st4)

/-- Model of `Parser.parseFunctionCall`. -/
def parseFunctionCall (parseExpr : ParserState → PRes (Option Expr))
    (val : Expr) (st : ParserState) : PRes (Option Expr) :=
  let cp := checkpoint st
  match parseArgs parseExpr st with
  | .error e => .error e
  | .ok (none, st1) => .ok (none, st1)
  | .ok (some args, st1) => .ok (some (.call val args cp), st1)

/-- The postfix chain loop of `parseModifiedSubexpression`: field access,
index/slice, or call, repeated left to right (each iteration consumes at
least one character, so it runs on the local remaining-input fuel). -/
def parsePostfixLoop (parseExpr : ParserState → PRes (Option Expr)) :
    Nat → Expr → ParserState → PRes Expr
  | 0, _, _ => .error (.plainErr "parser fuel exhausted")
  | Nat.succ n, val, st =>
    if isEof st then .ok (val, st)
    else
      match parseFieldAccess val st with
      | .error e => .error e
      | .ok (some v, st1) => parsePostfixLoop parseExpr n v st1
      | .ok (none, st1) =>
        match parseArrayAccess parseExpr val st1 with
        | .error e => .error e
        | .ok (some v, st2) => parsePostfixLoop parseExpr n v st2
        | .ok (none, st2) =>
          match parseFunctionCall parseExpr val st2 with
          | .error e => .error e
          | .ok (some v, st3) => parsePostfixLoop parseExpr n v st3
          | .ok (none, st3) => .ok (val, st3)
termination_by structural n _ _ => n

/-- Model of `Parser.parseSubexpression`: a parenthesized expression or a
literal. -/
def parseSubexpression (parseExpr : ParserState → PRes (Option Expr))
    (st : ParserState) : PRes (Option Expr) :=
  let cp := checkpoint st
  if pchar st 0 ≠ some '(' then parseLiteral st
  else
    match advance 1 st with
    | .error e => .error e
    | .ok st1 =>
      match skipAllWhitespace st1 with
      | .error e => .error e
      | .ok (_, st2) =>
        match parseExpr st2 with
        | .error e => .error e
        | .ok (none, st3) => .error (sourceError st3 "missing subexpression")
        | .ok (some expr, st3) =>
          if pchar st3 0 ≠ some ')' then
            .error (sourceError st3 ("subexpression ended unexpectedly, found "
              ++ charRepr (pchar st3 0)))
          else
            match advance 1 st3 with
            | .error e => .error e
            | .ok st4 =>
              match skipAllWhitespace st4 with
              | .error e => .error e
              | .ok (_, st5) => .ok (some (.subexpression expr cp), st5)

/-- Model of `Parser.parseModifiedSubexpression`: an atom followed by a
postfix chain. -/
def parseModifiedSubexpression (parseExpr : ParserState → PRes (Option Expr))
    (st : ParserState) : PRes (Option Expr) :=
  match parseSubexpression parseExpr st with
  | .error e => .error e
  | .ok (none, st1) => .ok (none, st1)
  | .ok (some val, st1) =>
    match parsePostfixLoop parseExpr (remFuel st1) val st1 with
    | .error e => .error e
    | .ok (v, st2) => .ok (some v, st2)

/-- Grammar level 7: the prefix modifiers `-`, `&`, `*`. -/
def parseValNegation (parseExpr : ParserState → PRes (Option Expr))
    (st : ParserState) : PRes (Option Expr) :=
  parseModifier (parseModifiedSubexpression parseExpr)
    [(ModNeg, ["-"]), (ModRef, ["&"]), (ModDeref, ["*"])] st

/-- Grammar level 6: `*`, `/`. -/
def parseMultiplicationDivision (parseExpr : ParserState → PRes (Option Expr))
    (st : ParserState) : PRes (Option Expr) :=
  parseOperation (parseValNegation parseExpr) [(OpMul, ["*"]), (OpDiv, ["/"])] st

/-- Grammar level 5: `+`, `-`. -/
def parseAdditionSubtraction (parseExpr : ParserState → PRes (Option Expr))
    (st : ParserState) : PRes (Option Expr) :=
  parseOperation (parseMultiplicationDivision parseExpr)
    [(OpAdd, ["+"]), (OpSub, ["-"])] st

/-- Grammar level 4: comparisons. -/
def parseComparison (parseExpr : ParserState → PRes (Option Expr))
    (st : ParserState) : PRes (Option Expr) :=
  parseOperation (parseAdditionSubtraction parseExpr)
    [(OpLess, ["<"]), (OpLessEqual, ["<="]), (OpEqual, ["=="]),
     (OpNotEqual, ["!=", "~=", "<>"]), (OpGreater, [">"]),
     (OpGreaterEqual, [">="])] st

/-- Grammar level 3: `!`. -/
def parseBoolNegation (parseExpr : ParserState → PRes (Option Expr))
    (st : ParserState) : PRes (Option Expr) :=
  parseModifier (parseComparison parseExpr) [(ModNot, ["!"])] st

/-- Grammar level 2: `&&`. -/
def parseConjunction (parseExpr : ParserState → PRes (Option Expr))
    (st : ParserState) : PRes (Option Expr) :=
  parseOperation (parseBoolNegation parseExpr) [(OpAnd, ["&&"])] st

/-- Grammar level 1: `||`. -/
def parseDisjunction (parseExpr : ParserState → PRes (Option Expr))
    (st : ParserState) : PRes (Option Expr) :=
  parseOperation (parseConjunction parseExpr) [(OpOr, ["||"])] st

/-- Model of `Parser.parseExpression`, tying the grammar's recursive
knot: the fuel bounds the depth of nested expression entries. -/
def parseExpression : Nat → ParserState → PRes (Option Expr)
  | 0, _ => .error (.plainErr "parser fuel exhausted")
  | Nat.succ n, st => parseDisjunction (parseExpression n) st
termination_by structural n _ => n

/-- Model of `Parser.Parse`: skip leading whitespace, parse one
expression, and reject trailing input or an empty parse. -/
def parseTop (st : ParserState) : Except GoError Expr :=
  match skipAllWhitespace st with
  | .error e => .error e
  | .ok (_, st1) =>
    match parseExpression (st1.source.length + 2) st1 with
    | .error e => .error e
    | .ok (val?, st2) =>
      if ¬ isEof st2 then
        .error (sourceError st2 ("unparsed input: " ++ goQuoteStr (remainingStr st2)))
      else
        match val? with
        | none => .error (sourceError st2 "nothing parsed")
        | some v => .ok v


/-- Model of the package-level `Parse`. -/
def Parse (expression : String) : Except GoError Expr :=
  parseTop { source := expression.data, pos := ⟨0, 1, 1⟩ }


/-- Model of the package-level `Eval`: parse then run, with panics
recovered into a `panic:`-prefixed error. -/
def Eval (expression : String) (env : Environment) :
    Except GoError (List RVal) × Environment :=
  match Parse expression with
  | .error e => (.error e, env)
  | .ok ast =>
    let res := Run ast env
    match res.1 with
    | .ok vs => (.ok vs, res.2)
    | .error (.err e) => (.error e, res.2)
    | .error (.fault msg) => (.error (.plainErr ("panic: " ++ msg)), res.2)

/-! Concrete fixtures used by the verification theorems. -/

/-- A throwaway source position for hand-built AST nodes. -/
def pos0 : Pos := ⟨0, 1, 1⟩

/-- A five-element sequence value. -/
def fiveSeq : RVal := .slice [.int 10, .int 20, .int 30, .int 40, .int 50]

/-- The environment of the slice scenarios: constants plus `a` bound to a
five-element sequence. -/
def sliceTestEnv : Environment := envSet (NewEnvironment 0) "a" fiveSeq

/-- The AST of `$define(name)(value)` (the `$`-prefixed spelling the
standard environment binds the define operator under). -/
def defineCallExpr (name : String) (v : Int) : Expr :=
  .call (.call (.ident "$define" pos0) [.value (.str name)] pos0) [.value (.int v)] pos0

/-- The AST of `$mutate(name)(value)`. -/
def mutateCallExpr (name : String) (v : Int) : Expr :=
  .call (.call (.ident "$mutate" pos0) [.value (.str name)] pos0) [.value (.int v)] pos0

/-- The AST of `$define("a", "a")(1, 2)`: the same name supplied twice to
one define. -/
def defineDupExpr : Expr :=
  .call (.call (.ident "$define" pos0) [.value (.str "a"), .value (.str "a")] pos0)
    [.value (.int 1), .value (.int 2)] pos0

/-- Slice access whose low bound is the side-effecting `$define("c")(1)`
and whose high bound is the literal 3. -/
def sliceLowSideEffectExpr : Expr :=
  .sliceAccess (.ident "a" pos0) (some (defineCallExpr "c" 1))
    (some (.value (.int 3))) pos0

/-- Standard environment with `a` bound to the five-element sequence. -/
def stdSliceEnv : Environment := envSet (NewStandardEnvironment 0) "a" fiveSeq

/-- Environment binding `x` to a host struct with no methods and no
fields. -/
def bareStructEnv : Environment := envSet (NewEnvironment 0) "x" (.hostStruct [] [])

/-- Standard environment with `f` bound to a zero-argument host function
returning two values. -/
def twoValueFnEnv : Environment :=
  envSet (NewStandardEnvironment 0) "f" (.hostFunc 0 [.int 1, .int 2])

/-- Specification-side predicate: each expression in the list evaluates,
left to right from the first environment, to exactly one value, producing
the given value list and final environment. -/
def EvalsToSingles : Environment → List Expr → List RVal → Environment → Prop
  | env, [], vs, env' => vs = [] ∧ env' = env
  | env, e :: es, vs, env' =>
    ∃ v envm vrest, Run e env = (.ok [v], envm) ∧
      EvalsToSingles envm es vrest env' ∧ vs = v :: vrest

/-! Helper lemmas (shared infrastructure for the claim theorems). -/

/-- Boolean form of string disequality for `List.lookup` reductions. -/
theorem str_beq_false_of_ne {a b : String} (h : a ≠ b) : (a == b) = false := by
  simpa using h

/-- Setting a key makes it the lookup result. -/
theorem lookup_setAssoc_self (l : List (String × RVal)) (k : String) (v : RVal) :
    (setAssoc l k v).lookup k = some v := by
  induction l with
  | nil => simp [setAssoc, List.lookup]
  | cons p rest ih =>
    obtain ⟨pk, pv⟩ := p
    by_cases h : pk = k
    · subst h
      simp [setAssoc, List.lookup]
    · simp only [setAssoc, if_neg h, List.lookup, str_beq_false_of_ne (Ne.symm h)]
      exact ih

/-- Setting a key leaves other lookups unchanged. -/
theorem lookup_setAssoc_ne (l : List (String × RVal)) (k k' : String) (v : RVal)
    (h : k' ≠ k) : (setAssoc l k v).lookup k' = l.lookup k' := by
  induction l with
  | nil => simp [setAssoc, List.lookup, str_beq_false_of_ne h]
  | cons p rest ih =>
    obtain ⟨pk, pv⟩ := p
    by_cases hpk : pk = k
    · subst hpk
      simp [setAssoc, List.lookup, str_beq_false_of_ne h]
    · simp only [setAssoc, if_neg hpk, List.lookup]
      cases hbeq : (k' == pk) <;> simp [hbeq, ih]

/-- Environment update then lookup of the same key. -/
theorem envGet_envSet_self (env : Environment) (k : String) (v : RVal) :
    envGet (envSet env k v) k = some v :=
  lookup_setAssoc_self env.binds k v

/-- Environment update then lookup of a different key. -/
theorem envGet_envSet_ne (env : Environment) (k k' : String) (v : RVal)
    (h : k' ≠ k) : envGet (envSet env k v) k' = envGet env k' :=
  lookup_setAssoc_ne env.binds k k' v h

/-- Environment updates preserve the map identity. -/
theorem envSet_id (env : Environment) (k : String) (v : RVal) :
    (envSet env k v).id = env.id := rfl

/-! Theorems for the specification claims. -/

/-- C1: the claim states that evaluating `a[1:3]` with `a` a five-element
sequence returns a single length-2 subsequence.  The code (env.go line
1018) evaluates the Low expression a second time in place of High, so the
slice taken is `a[1:1]` — a single subsequence of length 0, not 2.  The
spec's own §9 flags the double evaluation as an implementation defect and
the parsed-but-never-run `High` field corroborates the slip, so this is
recorded as a code bug; this theorem evaluates the code at the failing
input. -/
theorem slice_low_twice_code_bug :
    (Eval "a[1:3]" sliceTestEnv).1 = .ok [.slice []] ∧
    [RVal.slice []] ≠ [RVal.slice [.int 20, .int 30]] :=
  ⟨rfl, by simp⟩

/-- C9 counterexample: the claim says `NewEnvironment()` seeds the
binding operators; it binds neither a `define`/`mutate`/`import` operator
nor their `$`-prefixed spellings — only the three constants. -/
theorem newEnvironment_lacks_binding_operators :
    envGet (NewEnvironment 0) "define" = none ∧
    envGet (NewEnvironment 0) "$define" = none ∧
    envGet (NewEnvironment 0) "mutate" = none ∧
    envGet (NewEnvironment 0) "$mutate" = none ∧
    envGet (NewEnvironment 0) "import" = none ∧
    envGet (NewEnvironment 0) "$import" = none :=
  ⟨rfl, rfl, rfl, rfl, rfl, rfl⟩

/-- C9 amended: `NewEnvironment()` seeds exactly the constants `nil`,
`true`, `false`; the binding operators are seeded by
`NewStandardEnvironment()`, under the names `$define`, `$mutate`,
`$import` (plus `len`), alongside the same constants. -/
theorem environment_seeding :
    envGet (NewEnvironment 0) "nil" = some .invalid ∧
    envGet (NewEnvironment 0) "true" = some (.bool true) ∧
    envGet (NewEnvironment 0) "false" = some (.bool false) ∧
    (NewEnvironment 0).binds.map Prod.fst = ["nil", "true", "false"] ∧
    envGet (NewStandardEnvironment 0) "nil" = some .invalid ∧
    envGet (NewStandardEnvironment 0) "true" = some (.bool true) ∧
    envGet (NewStandardEnvironment 0) "false" = some (.bool false) ∧
    envGet (NewStandardEnvironment 0) "$define" = some (.lowerFn 0 (.assignNames false)) ∧
    envGet (NewStandardEnvironment 0) "$mutate" = some (.lowerFn 0 (.assignNames true)) ∧
    envGet (NewStandardEnvironment 0) "$import" = some (.lowerFn 0 .importFn) ∧
    envGet (NewStandardEnvironment 0) "len" = some (.lowerFn 0 .lenFn) :=
  ⟨rfl, rfl, rfl, rfl, rfl, rfl, rfl, rfl, rfl, rfl, rfl⟩

/-- C2: `SliceAccess.Run` evaluates the Low expression twice — once for
the low bound and once reused in place of the high bound — so the parsed
High expression is never evaluated (the result is independent of it) and
any observable state effect of the Low expression occurs exactly twice
per slice evaluation.  Concretely, a low bound of `$define("c")(1)` makes
the second evaluation fail with the variable-already-exists error while
the first evaluation's binding of `c` persists. -/
theorem sliceAccess_evaluates_low_twice
    (arr lo : Expr) (hi : Option Expr) (pos : Pos)
    (env env1 env2 env3 : Environment) (v l h : RVal)
    (harr : Run arr env = (.ok [v], env1))
    (hlo1 : Run lo env1 = (.ok [l], env2))
    (hlo2 : Run lo env2 = (.ok [h], env3)) :
    Run (.sliceAccess arr (some lo) hi pos) env = (sliceEval pos v l h, env3) ∧
    (∀ hi', Run (.sliceAccess arr (some lo) hi pos) env
        = Run (.sliceAccess arr (some lo) hi' pos) env) ∧
    (Run sliceLowSideEffectExpr stdSliceEnv).1
        = .error (.err (.plainErr "variable \"c\" already exists")) ∧
    envGet (Run sliceLowSideEffectExpr stdSliceEnv).2 "c" = some (.int 1) := by
  refine ⟨?_, ?_, rfl, rfl⟩
  · simp [Run, runOpt, harr, hlo1, hlo2, singleValue]
  · intro hi'
    simp only [Run]

/-- C2 witness: the general slice equation applied at a literal target
and literal bounds. -/
theorem sliceAccess_evaluates_low_twice_witness :
    Run (.sliceAccess (.value fiveSeq) (some (.value (.int 1)))
        (some (.value (.int 3))) pos0) (NewEnvironment 0)
      = (sliceEval pos0 fiveSeq (.int 1) (.int 1), NewEnvironment 0) :=
  (sliceAccess_evaluates_low_twice (.value fiveSeq) (.value (.int 1))
    (some (.value (.int 3))) pos0 (NewEnvironment 0) (NewEnvironment 0)
    (NewEnvironment 0) (NewEnvironment 0) fiveSeq (.int 1) (.int 1)
    rfl rfl rfl).1


/-- C3: every binary-operation node whose operator is one of the declared
arithmetic/relational operators `+ - * / < <= > >=` and whose left
operand evaluates to a single value returns the positioned
unknown-operator error, and concretely `1 + 1` evaluates to that error,
not 2. -/
theorem arith_ops_unknown_operator
    (ty : OpType) (l r : Expr) (pos : Pos) (env env1 : Environment) (v : RVal)
    (hop : ty ∈ [OpAdd, OpSub, OpMul, OpDiv, OpLess, OpLessEqual, OpGreater,
      OpGreaterEqual])
    (hL : Run l env = (.ok [v], env1)) :
    Run (.operation ty l r pos) env
        = (.error (.err (posErr .unknownOp pos (goQuoteStr ty))), env1) ∧
    (Eval "1 + 1" (NewEnvironment 0)).1
        = .error (.posErr .unknownOp 1 3 (goQuoteStr OpAdd)) := by
  refine ⟨?_, rfl⟩
  fin_cases hop <;>
    simp [Run, hL, singleValue, OpAdd, OpSub, OpMul, OpDiv, OpLess, OpLessEqual,
      OpGreater, OpGreaterEqual, OpEqual, OpNotEqual, OpAnd, OpOr]

/-- C3 witness: the unknown-operator equation applied to the node that
`1 + 1` parses to. -/
theorem arith_ops_unknown_operator_witness :
    Run (.operation OpAdd (.value (.int 1)) (.value (.int 1)) ⟨2, 1, 3⟩)
        (NewEnvironment 0)
      = (.error (.err (posErr .unknownOp ⟨2, 1, 3⟩ (goQuoteStr OpAdd))),
          NewEnvironment 0) :=
  (arith_ops_unknown_operator OpAdd (.value (.int 1)) (.value (.int 1)) ⟨2, 1, 3⟩
    (NewEnvironment 0) (NewEnvironment 0) (.int 1) (by decide) rfl).1



/-- C4: `&&` with a false left operand returns the left value as-is with
the right operand never evaluated (the result does not depend on it), and
with a true left operand returns the right operand's single value; `||`
dually; concretely `true && false` evaluates to `false`. -/
theorem boolean_short_circuit (L R : Expr) (pos : Pos) (env : Environment) :
    (∀ env1, Run L env = (.ok [.bool false], env1) →
      Run (.operation OpAnd L R pos) env = (.ok [.bool false], env1)) ∧
    (∀ env1 env2 v, Run L env = (.ok [.bool true], env1) →
      Run R env1 = (.ok [v], env2) →
      Run (.operation OpAnd L R pos) env = (.ok [v], env2)) ∧
    (∀ env1, Run L env = (.ok [.bool true], env1) →
      Run (.operation OpOr L R pos) env = (.ok [.bool true], env1)) ∧
    (∀ env1 env2 v, Run L env = (.ok [.bool false], env1) →
      Run R env1 = (.ok [v], env2) →
      Run (.operation OpOr L R pos) env = (.ok [v], env2)) ∧
    (Eval "true && false" (NewEnvironment 0)).1 = .ok [.bool false] := by
  refine ⟨?_, ?_, ?_, ?_, rfl⟩
  · intro env1 hL
    simp [Run, hL, singleValue, goBool, OpAnd, OpOr, OpEqual, OpNotEqual]
  · intro env1 env2 v hL hR
    simp [Run, hL, hR, singleValue, goBool, OpAnd, OpOr, OpEqual, OpNotEqual]
  · intro env1 hL
    simp [Run, hL, singleValue, goBool, OpAnd, OpOr, OpEqual, OpNotEqual]
  · intro env1 env2 v hL hR
    simp [Run, hL, hR, singleValue, goBool, OpAnd, OpOr, OpEqual, OpNotEqual]

/-- C4 witness: both short-circuit directions at literal boolean
operands. -/
theorem boolean_short_circuit_witness :
    Run (.operation OpAnd (.value (.bool false)) (.value (.bool true)) pos0)
        (NewEnvironment 0)
      = (.ok [.bool false], NewEnvironment 0) ∧
    Run (.operation OpOr (.value (.bool true)) (.value (.bool false)) pos0)
        (NewEnvironment 0)
      = (.ok [.bool true], NewEnvironment 0) :=
  ⟨(boolean_short_circuit (.value (.bool false)) (.value (.bool true)) pos0
      (NewEnvironment 0)).1 (NewEnvironment 0) rfl,
   (boolean_short_circuit (.value (.bool true)) (.value (.bool false)) pos0
      (NewEnvironment 0)).2.2.1 (NewEnvironment 0) rfl⟩

/-- The per-argument loop agrees with `EvalsToSingles`: when every
argument yields exactly one value, the collected list is returned. -/
theorem runArgsEach_of_evalsToSingles (pos : Pos) :
    ∀ (es : List Expr) (env : Environment) (vs : List RVal) (env' : Environment),
      EvalsToSingles env es vs env' → runArgsEach pos es env = (.ok vs, env')
  | [], env, vs, env', h => by
    simp only [EvalsToSingles] at h
    obtain ⟨h1, h2⟩ := h
    subst h1
    subst h2
    simp [runArgsEach]
  | e :: es, env, vs, env', h => by
    simp only [EvalsToSingles] at h
    obtain ⟨v, envm, vrest, hrun, hrest, hvs⟩ := h
    subst hvs
    have ih := runArgsEach_of_evalsToSingles pos es envm vrest env' hrest
    simp [runArgsEach, hrun, singleValue, ih]

/-- The per-argument loop raises the positioned multivalue runtime error
at the first argument that yields two or more values. -/
theorem runArgsEach_multivalue (pos : Pos) :
    ∀ (pre : List Expr) (e : Expr) (suf : List Expr)
      (env envm envm' : Environment) (vs ws : List RVal),
      EvalsToSingles env pre vs envm →
      Run e envm = (.ok ws, envm') → 2 ≤ ws.length →
      runArgsEach pos (pre ++ e :: suf) env
        = (.error (.err (posErr .runtime pos
            "multivalue result used in single value location")), envm')
  | [], e, suf, env, envm, envm', vs, ws, hpre, hrun, hlen => by
    simp only [EvalsToSingles] at hpre
    obtain ⟨_, h2⟩ := hpre
    subst h2
    rcases ws with _ | ⟨w1, _ | ⟨w2, wrest⟩⟩
    · simp at hlen
    · simp at hlen
    · simp [runArgsEach, hrun, singleValue]
  | p :: pre, e, suf, env, envm, envm', vs, ws, hpre, hrun, hlen => by
    simp only [EvalsToSingles] at hpre
    obtain ⟨v, envp, vrest, hrunp, hrest, _⟩ := hpre
    have ih := runArgsEach_multivalue pos pre e suf envp envm envm' vrest ws hrest hrun hlen
    simp [runArgsEach, hrunp, singleValue, ih]

/-- C5: in `Call.Run`, when exactly one argument expression is present
all the values it yields — zero, one, or many — become the full argument
list passed to the callee; with two or more argument expressions each
must yield exactly one value (the collected singletons form the argument
list) and an argument yielding two or more values is the positioned
multivalue runtime error. -/
theorem call_argument_collection
    (fnE : Expr) (pos : Pos) (env env1 : Environment) (envId : Nat) (nf : NativeFn)
    (hfn : Run fnE env = (.ok [.lowerFn envId nf], env1)) :
    (∀ e vs env2, Run e env1 = (.ok vs, env2) → envId = env2.id →
      Run (.call fnE [e] pos) env = applyNative nf vs env2) ∧
    (∀ a b rest vs env2, EvalsToSingles env1 (a :: b :: rest) vs env2 →
      envId = env2.id →
      Run (.call fnE (a :: b :: rest) pos) env = applyNative nf vs env2) ∧
    (∀ pre e suf envm envm' vs ws, 2 ≤ (pre ++ e :: suf).length →
      EvalsToSingles env1 pre vs envm →
      Run e envm = (.ok ws, envm') → 2 ≤ ws.length →
      Run (.call fnE (pre ++ e :: suf) pos) env
        = (.error (.err (posErr .runtime pos
            "multivalue result used in single value location")), envm')) := by
  refine ⟨?_, ?_, ?_⟩
  · intro e vs env2 hrun hid
    simp [Run, hfn, singleValue, hrun, hid]
  · intro a b rest vs env2 hsingles hid
    have hargs := runArgsEach_of_evalsToSingles pos (a :: b :: rest) env1 vs env2 hsingles
    simp [Run, hfn, singleValue, hargs, hid]
  · intro pre e suf envm envm' vs ws hlen hpre hrun hws
    have hargs := runArgsEach_multivalue pos pre e suf env1 envm envm' vs ws hpre hrun hws
    rcases pre with _ | ⟨p, pre⟩
    · rcases suf with _ | ⟨s, suf⟩
      · simp at hlen
      · simp only [List.nil_append] at hargs ⊢
        simp [Run, hfn, singleValue, hargs]
    · rcases hc : pre ++ e :: suf with _ | ⟨q, qs⟩
      · exact absurd hc (by simp)
      · simp only [List.cons_append, hc] at hargs ⊢
        simp [Run, hfn, singleValue, hargs]

/-- C5 witness: a two-valued host function spread as the sole argument of
the `len` built-in becomes its full (two-element) argument list. -/
theorem call_argument_collection_witness :
    Run (.call (.ident "len" pos0) [.call (.ident "f" pos0) [] pos0] pos0)
        twoValueFnEnv
      = applyNative .lenFn [.int 1, .int 2] twoValueFnEnv :=
  (call_argument_collection (.ident "len" pos0) pos0 twoValueFnEnv twoValueFnEnv
    0 .lenFn rfl).1 (.call (.ident "f" pos0) [] pos0) [.int 1, .int 2]
    twoValueFnEnv rfl rfl

/-- The define-direction name check passes over string arguments that are
not yet bound. -/
theorem checkNames_define_ok :
    ∀ (names : List RVal) (env : Environment),
      (∀ x ∈ names, ∃ s, x = RVal.str s ∧ envGet env s = none) →
      checkNames false env names = none
  | [], _, _ => rfl
  | x :: rest, env, h => by
    obtain ⟨s, hx, hs⟩ := h x (List.mem_cons_self x rest)
    subst hx
    have ih := checkNames_define_ok rest env (fun y hy => h y (List.mem_cons_of_mem _ hy))
    simp [checkNames, kindOf, rvalString, hs, ih]

/-- The define-direction name check stops with the already-exists error
at the first bound name. -/
theorem checkNames_define_hit :
    ∀ (pre : List RVal) (k : String) (post : List RVal) (env : Environment),
      (∀ x ∈ pre, ∃ s, x = RVal.str s ∧ envGet env s = none) →
      (envGet env k).isSome = true →
      checkNames false env (pre ++ RVal.str k :: post)
        = some (.plainErr ("variable " ++ goQuoteStr k ++ " already exists"))
  | [], k, post, env, _, hk => by
    simp [checkNames, kindOf, rvalString, hk]
  | x :: pre, k, post, env, h, hk => by
    obtain ⟨s, hx, hs⟩ := h x (List.mem_cons_self x pre)
    subst hx
    have ih := checkNames_define_hit pre k post env
      (fun y hy => h y (List.mem_cons_of_mem _ hy)) hk
    simp [checkNames, kindOf, rvalString, hs, ih]

/-- The mutate-direction name check passes over string arguments that are
already bound. -/
theorem checkNames_mutate_ok :
    ∀ (names : List RVal) (env : Environment),
      (∀ x ∈ names, ∃ s, x = RVal.str s ∧ (envGet env s).isSome = true) →
      checkNames true env names = none
  | [], _, _ => rfl
  | x :: rest, env, h => by
    obtain ⟨s, hx, hs⟩ := h x (List.mem_cons_self x rest)
    subst hx
    obtain ⟨w, hw⟩ := Option.isSome_iff_exists.mp hs
    have ih := checkNames_mutate_ok rest env (fun y hy => h y (List.mem_cons_of_mem _ hy))
    simp [checkNames, kindOf, rvalString, hw, ih]

/-- The mutate-direction name check stops with the does-not-exist error
at the first unbound name. -/
theorem checkNames_mutate_hit :
    ∀ (pre : List RVal) (k : String) (post : List RVal) (env : Environment),
      (∀ x ∈ pre, ∃ s, x = RVal.str s ∧ (envGet env s).isSome = true) →
      envGet env k = none →
      checkNames true env (pre ++ RVal.str k :: post)
        = some (.plainErr ("variable " ++ goQuoteStr k ++ " does not exist"))
  | [], k, post, env, _, hk => by
    simp [checkNames, kindOf, rvalString, hk]
  | x :: pre, k, post, env, h, hk => by
    obtain ⟨s, hx, hs⟩ := h x (List.mem_cons_self x pre)
    subst hx
    obtain ⟨w, hw⟩ := Option.isSome_iff_exists.mp hs
    have ih := checkNames_mutate_hit pre k post env
      (fun y hy => h y (List.mem_cons_of_mem _ hy)) hk
    simp [checkNames, kindOf, rvalString, hw, ih]

/-- Binding a list of names leaves lookups of unlisted keys unchanged. -/
theorem envGet_bindAll_not_mem :
    ∀ (names : List String) (rhs : List RVal) (env : Environment) (key : String),
      key ∉ names →
      envGet (bindAll env (names.map RVal.str) rhs) key = envGet env key
  | [], rhs, env, key, _ => by simp [bindAll]
  | n :: names, rhs, env, key, h => by
    cases rhs with
    | nil => simp [bindAll]
    | cons r rs =>
      have hne : key ≠ n := fun he => h (he ▸ List.mem_cons_self n names)
      have ih := envGet_bindAll_not_mem names rs (envSet env n r) key
        (fun hm => h (List.mem_cons_of_mem _ hm))
      simp [bindAll, rvalString, ih, envGet_envSet_ne _ _ _ _ hne]

/-- Binding distinct names assigns each its paired value. -/
theorem envGet_bindAll_mem :
    ∀ (names : List String) (rhs : List RVal) (env : Environment)
      (k : String) (v : RVal),
      names.Nodup → (k, v) ∈ names.zip rhs →
      envGet (bindAll env (names.map RVal.str) rhs) k = some v
  | [], rhs, env, k, v, _, hm => by simp at hm
  | n :: names, rhs, env, k, v, hnd, hm => by
    cases rhs with
    | nil => simp at hm
    | cons r rs =>
      rw [List.zip_cons_cons, List.mem_cons] at hm
      obtain ⟨hn, hnd'⟩ := List.nodup_cons.mp hnd
      rcases hm with heq | hm
      · obtain ⟨hk, hv⟩ := Prod.ext_iff.mp heq
        dsimp only at hk hv
        subst hk
        subst hv
        have hrest := envGet_bindAll_not_mem names rs (envSet env k v) k hn
        simp [bindAll, rvalString, hrest, envGet_envSet_self]
      · have hkn : k ≠ n := by
          rintro rfl
          exact hn (List.of_mem_zip hm).1
        have ih := envGet_bindAll_mem names rs (envSet env n r) k v hnd' hm
        simp [bindAll, rvalString, ih]

/-- C6 counterexample: the claim says the first step of define must fail
when the same name appears more than once in its argument list; the code
only checks each name against the environment, so `$define("a", "a")`
succeeds on a fresh standard environment and the two-step call
`$define("a", "a")(1, 2)` binds `a` to 2 and reports no error. -/
theorem define_duplicate_names_accepted :
    (applyNative (.assignNames false) [.str "a", .str "a"]
        (NewStandardEnvironment 0)).1
      = .ok [.lowerFn 0 (.assignValues false [.str "a", .str "a"])] ∧
    (Run defineDupExpr (NewStandardEnvironment 0)).1 = .ok [] ∧
    envGet (Run defineDupExpr (NewStandardEnvironment 0)).2 "a" = some (.int 2) :=
  ⟨rfl, rfl, rfl⟩

/-- C6 (amended: the duplicate-name clause is dropped — the first step
checks names only against the environment): define fails on the first
already-bound name and otherwise returns the second step; mutate fails on
the first unbound name and otherwise returns the second step; the second
step fails on an arity mismatch and otherwise binds each name to its
corresponding value in the shared environment, returning no values; and
`define("a")(1)` then `define("a")(2)` fails with the
variable-already-exists error while `mutate("a")(2)` succeeds and lookup
of `a` then yields 2. -/
theorem define_mutate_binding_semantics :
    (∀ env pre k post,
      (∀ x ∈ pre, ∃ s, x = RVal.str s ∧ envGet env s = none) →
      (envGet env k).isSome = true →
      applyNative (.assignNames false) (pre ++ RVal.str k :: post) env
        = (.error (.err (.plainErr ("variable " ++ goQuoteStr k
            ++ " already exists"))), env)) ∧
    (∀ env names,
      (∀ x ∈ names, ∃ s, x = RVal.str s ∧ envGet env s = none) →
      applyNative (.assignNames false) names env
        = (.ok [.lowerFn env.id (.assignValues false names)], env)) ∧
    (∀ env pre k post,
      (∀ x ∈ pre, ∃ s, x = RVal.str s ∧ (envGet env s).isSome = true) →
      envGet env k = none →
      applyNative (.assignNames true) (pre ++ RVal.str k :: post) env
        = (.error (.err (.plainErr ("variable " ++ goQuoteStr k
            ++ " does not exist"))), env)) ∧
    (∀ env names,
      (∀ x ∈ names, ∃ s, x = RVal.str s ∧ (envGet env s).isSome = true) →
      applyNative (.assignNames true) names env
        = (.ok [.lowerFn env.id (.assignValues true names)], env)) ∧
    (∀ m env (lhs rhs : List RVal), lhs.length ≠ rhs.length →
      applyNative (.assignValues m lhs) rhs env
        = (.error (.err (.plainErr
            ("variable definition expected a variable for each value ("
              ++ toString lhs.length ++ " != " ++ toString rhs.length ++ ")"))),
           env)) ∧
    (∀ m env (names : List String) (rhs : List RVal) k v,
      names.length = rhs.length → names.Nodup →
      (applyNative (.assignValues m (names.map RVal.str)) rhs env).1 = .ok [] ∧
      ((k, v) ∈ names.zip rhs →
        envGet (applyNative (.assignValues m (names.map RVal.str)) rhs env).2 k
          = some v) ∧
      (k ∉ names →
        envGet (applyNative (.assignValues m (names.map RVal.str)) rhs env).2 k
          = envGet env k)) ∧
    ((Run (defineCallExpr "a" 1) (NewStandardEnvironment 0)).1 = .ok [] ∧
      (Run (defineCallExpr "a" 2)
          (Run (defineCallExpr "a" 1) (NewStandardEnvironment 0)).2).1
        = .error (.err (.plainErr "variable \"a\" already exists")) ∧
      (Run (mutateCallExpr "a" 2)
          (Run (defineCallExpr "a" 1) (NewStandardEnvironment 0)).2).1
        = .ok [] ∧
      envGet (Run (mutateCallExpr "a" 2)
          (Run (defineCallExpr "a" 1) (NewStandardEnvironment 0)).2).2 "a"
        = some (.int 2)) := by
  refine ⟨?_, ?_, ?_, ?_, ?_, ?_, rfl, rfl, rfl, rfl⟩
  · intro env pre k post hpre hk
    simp [applyNative, checkNames_define_hit pre k post env hpre hk]
  · intro env names h
    simp [applyNative, checkNames_define_ok names env h]
  · intro env pre k post hpre hk
    simp [applyNative, checkNames_mutate_hit pre k post env hpre hk]
  · intro env names h
    simp [applyNative, checkNames_mutate_ok names env h]
  · intro m env lhs rhs hlen
    simp [applyNative, hlen]
  · intro m env names rhs k v hlen hnd
    refine ⟨?_, ?_, ?_⟩
    · simp [applyNative, hlen]
    · intro hm
      simp only [applyNative, List.length_map, hlen, ne_eq, not_true_eq_false,
        if_false, ite_false]
      simpa using envGet_bindAll_mem names rhs env k v hnd hm
    · intro hk
      simp only [applyNative, List.length_map, hlen, ne_eq, not_true_eq_false,
        if_false, ite_false]
      simpa using envGet_bindAll_not_mem names rhs env k hk

/-- C6 witness: the general clauses applied at concrete names, values and
environments. -/
theorem define_mutate_binding_semantics_witness :
    applyNative (.assignNames false) [RVal.str "a"]
        (envSet (NewStandardEnvironment 0) "a" (.int 1))
      = (.error (.err (.plainErr "variable \"a\" already exists")),
         envSet (NewStandardEnvironment 0) "a" (.int 1)) ∧
    applyNative (.assignNames true) [RVal.str "b"] (NewStandardEnvironment 0)
      = (.error (.err (.plainErr "variable \"b\" does not exist")),
         NewStandardEnvironment 0) ∧
    (applyNative (.assignValues false [RVal.str "c"]) [.int 7]
        (NewStandardEnvironment 0)).1 = .ok [] ∧
    envGet (applyNative (.assignValues false [RVal.str "c"]) [.int 7]
        (NewStandardEnvironment 0)).2 "c" = some (.int 7) := by
  have std := NewStandardEnvironment 0
  refine ⟨?_, ?_, ?_, ?_⟩
  · exact (define_mutate_binding_semantics).1
      (envSet (NewStandardEnvironment 0) "a" (.int 1)) [] "a" []
      (fun x hx => absurd hx (List.not_mem_nil x)) rfl
  · exact (define_mutate_binding_semantics).2.2.1 (NewStandardEnvironment 0)
      [] "b" [] (fun x hx => absurd hx (List.not_mem_nil x)) rfl
  · exact ((define_mutate_binding_semantics).2.2.2.2.2.1 false
      (NewStandardEnvironment 0) ["c"] [.int 7] "c" (.int 7) rfl
      (List.nodup_singleton "c")).1
  · exact ((define_mutate_binding_semantics).2.2.2.2.2.1 false
      (NewStandardEnvironment 0) ["c"] [.int 7] "c" (.int 7) rfl
      (List.nodup_singleton "c")).2.1 (by simp)

/-- C7 counterexample: the claim says a field access on a value with no
method or field of the given name always errors; for struct-kind values
the code returns `FieldByName`'s zero Value with `found = true`, so
`x.foo` on a struct with no methods and no fields succeeds silently with
the invalid value. -/
theorem fieldAccess_struct_missing_field_silent :
    (Run (.fieldAccess (.ident "x" pos0) "foo" pos0 pos0) bareStructEnv).1
      = .ok [.invalid] ∧
    (Eval "x.foo" bareStructEnv).1 = .ok [RVal.invalid] :=
  ⟨rfl, rfl⟩

/-- C7 (amended: struct-kind values are excluded — their `FieldByName`
lookup result, the invalid value for an absent field, is returned without
error): a field access whose target evaluates to a single value that is
not a namespace handle of the current environment, has no method of the
given name and is not struct-kind (and, for pointer/interface values,
whose referenced value likewise offers neither) returns the positioned
type-mismatch error naming the attempted field and describing the value —
never a silent success. -/
theorem fieldAccess_no_capability_error
    (target : Expr) (name : String) (fp pos : Pos) (env env1 : Environment)
    (v : RVal)
    (hrun : Run target env = (.ok [v], env1))
    (hv : tryAccess v name = none)
    (helem : ∀ inner, elemOf v = some inner → tryAccess inner name = none) :
    Run (.fieldAccess target name fp pos) env
      = (.error (.err (posErr .typeMismatch pos
          ("tried to access field " ++ goQuoteStr name ++ " on value "
            ++ goQuoteVal v ++ ", " ++ kindName (kindOf v)))), env1) := by
  have hfallback : fieldFallback pos name v = fieldAccessError pos name v := by
    simp only [fieldFallback, hv]
    cases he : elemOf v with
    | none => rfl
    | some inner => simp [helem inner he]
  have hfb : fieldLookup pos env1.id name v = fieldFallback pos name v := by
    cases v with
    | lowerSt envId sub => simp [tryAccess, methodByName, kindOf] at hv
    | _ => simp [fieldLookup]
  simp [Run, hrun, singleValue, hfb, hfallback, fieldAccessError]

/-- C7 witness: the error equation applied to a field access on an
integer value. -/
theorem fieldAccess_no_capability_error_witness :
    Run (.fieldAccess (.value (.int 5)) "foo" pos0 ⟨2, 3, 4⟩) (NewEnvironment 0)
      = (.error (.err (posErr .typeMismatch ⟨2, 3, 4⟩
          ("tried to access field " ++ goQuoteStr "foo" ++ " on value "
            ++ goQuoteVal (.int 5) ++ ", " ++ kindName (kindOf (.int 5))))),
         NewEnvironment 0) :=
  fieldAccess_no_capability_error (.value (.int 5)) "foo" pos0 ⟨2, 3, 4⟩
    (NewEnvironment 0) (NewEnvironment 0) (.int 5) rfl rfl
    (fun _ h => Option.noConfusion h)

/-- C8 counterexample: the claim says every parse- or run-raised error —
including unbound-variable and numeric-literal range errors — carries a
line and column; the unbound-variable error of `Ident.Run` and the
`strconv.ParseInt` range error are built with plain `fmt.Errorf` and
carry no position. -/
theorem unbound_error_lacks_position :
    (Eval "doesNotExist" (NewEnvironment 0)).1
      = .error (.wrappedErr .unboundVar (goQuoteStr "doesNotExist")) ∧
    GoError.hasPosition (.wrappedErr .unboundVar (goQuoteStr "doesNotExist"))
      = false ∧
    Parse "99999999999999999999"
      = .error (.plainErr ("strconv.ParseInt: parsing "
          ++ goQuoteStr "99999999999999999999" ++ ": value out of range")) ∧
    GoError.hasPosition (.plainErr ("strconv.ParseInt: parsing "
        ++ goQuoteStr "99999999999999999999" ++ ": value out of range"))
      = false :=
  ⟨rfl, rfl, rfl, rfl⟩

/-- C8 (amended): errors built through `position.Err` — the parser's
syntax errors and the multivalue, type-mismatch, unknown-operator and
runtime errors the nodes raise through their stored positions — carry the
source line and column, but unbound-variable errors and numeric-literal
range errors carry only the error kind and the offending text. -/
theorem error_position_attribution :
    (∀ name pos env, envGet env name = none →
      Run (.ident name pos) env
        = (.error (.err (.wrappedErr .unboundVar (goQuoteStr name))), env)) ∧
    (∀ kind msg, GoError.hasPosition (.wrappedErr kind msg) = false) ∧
    (∀ msg, GoError.hasPosition (.plainErr msg) = false) ∧
    (∀ kind pos msg, GoError.hasPosition (posErr kind pos msg) = true) ∧
    (∀ st msg, GoError.hasPosition (sourceError st msg) = true) ∧
    (∀ ty l r pos env env1 (vs : List RVal), 2 ≤ vs.length →
      Run l env = (.ok vs, env1) →
      Run (.operation ty l r pos) env
        = (.error (.err (posErr .runtime pos
            "multivalue result used in single value location")), env1)) ∧
    Parse "1 1" = .error (.posErr .parser 1 3 ("unparsed input: " ++ goQuoteStr "1")) := by
  refine ⟨?_, ?_, ?_, ?_, ?_, ?_, rfl⟩
  · intro name pos env h
    simp [Run, h]
  · intro kind msg
    rfl
  · intro msg
    rfl
  · intro kind pos msg
    rfl
  · intro st msg
    rfl
  · intro ty l r pos env env1 vs hlen hrun
    rcases vs with _ | ⟨v1, _ | ⟨v2, vrest⟩⟩
    · simp at hlen
    · simp at hlen
    · simp [Run, hrun, singleValue]

/-- C8 witness: the unbound-variable clause and the positioned multivalue
clause applied at concrete inputs. -/
theorem error_position_attribution_witness :
    Run (.ident "doesNotExist" pos0) (NewEnvironment 0)
      = (.error (.err (.wrappedErr .unboundVar (goQuoteStr "doesNotExist"))),
         NewEnvironment 0) ∧
    Run (.operation OpAnd (.call (.ident "f" pos0) [] pos0) (.value (.bool true))
        ⟨5, 2, 7⟩) twoValueFnEnv
      = (.error (.err (posErr .runtime ⟨5, 2, 7⟩
          "multivalue result used in single value location")), twoValueFnEnv) :=
  ⟨(error_position_attribution).1 "doesNotExist" pos0 (NewEnvironment 0) rfl,
   (error_position_attribution).2.2.2.2.2.1 OpAnd (.call (.ident "f" pos0) [] pos0)
     (.value (.bool true)) ⟨5, 2, 7⟩ twoValueFnEnv twoValueFnEnv [.int 1, .int 2]
     (by simp) rfl⟩

end Reflectlang
